import Mathlib

/-!
Shallow embedding of `src/tracelib.h` (namespace `trace` of the C++ source),
an in-process event tracer that renders events as JSON object literals,
buffers them in a vector and flushes them to an output file.

Modelling conventions:
* `std::vector<std::string> dataVector` is a `List String`; `reserve` is kept
  as the explicit capacity field `cap` because the code's flush condition
  compares `size()` with `capacity()`.
* `std::ofstream traceFile` is an `OStream`: the path it currently has open
  (if any) and its fail state.  Per the C++ standard, `open` on an already
  open stream fails and sets `failbit`; a successful `open` clears the flags
  and truncates the file; writes on a failed or closed stream do nothing.
* the file system is an association list from path to file content.
* `Clock::now()` readings are an input tape `clock : List Nat` (instants in
  nanoseconds); each call to `now()` consumes one entry (`headD 0`).
  `duration_cast<microseconds>` truncates, i.e. divides by 1000, and the
  `int(...)` cast wraps to a signed 32-bit value (`toInt32`).
* `trace_end` runs `dataVector.back()` and two `pop_back()`s on the last
  buffered string; on an empty buffer (or a string shorter than the two
  characters being removed) this is undefined behaviour in C++, modelled as
  `none`.
* the fixed 1000-byte `stringBuffer` scratch array is not modelled: rendered
  records are unbounded Lean strings (the source's unchecked `sprintf`
  overflow is an orthogonal known flaw, out of scope of these claims).
* `std::cerr` output is collected in `errLog`.
-/

namespace Tracelib

/-- Decimal digits of `n`, most significant first, by repeated division;
structural recursion on `fuel`, which every call keeps at least as large as
the number of digits, so the zero-fuel base case is never reached when
rendering a number. -/
def natToCharsAux : Nat → Nat → List Char
  | 0, _ => []
  | fuel + 1, n =>
    if n < 10 then [Char.ofNat (48 + n)]
    else natToCharsAux fuel (n / 10) ++ [Char.ofNat (48 + n % 10)]

/-- Decimal rendering of a natural number, exactly as `printf` produces it
for a non-negative value; in particular `natToString 0 = "0"`. -/
def natToString (n : Nat) : String :=
  ⟨natToCharsAux (n + 1) n⟩

/-- Decimal rendering of an integer, as `printf`'s `%i`. -/
def intToString (i : Int) : String :=
  if i < 0 then "-" ++ natToString i.natAbs else natToString i.toNat

/-- Conversion of a natural number to a C `int`: wrap modulo `2^32` and
reinterpret as a signed two's-complement 32-bit value. -/
def toInt32 (n : Nat) : Int :=
  if n % 2 ^ 32 < 2 ^ 31 then (n % 2 ^ 32 : Nat) else (n % 2 ^ 32 : Nat) - 2 ^ 32

/-- The `ts` field: `int(duration_cast<microseconds>(Clock::now()-startTime).count())`
with clock instants in nanoseconds. -/
def tsRender (origin now : Nat) : Int :=
  toInt32 ((now - origin) / 1000)

/-- `const int TRACE_MAX = 10000`. -/
def TRACE_MAX : Nat := 10000

/-- `static int PID_VALUE = 1` (never mutated). -/
def PID_VALUE : Int := 1

/-- `static int TID_VALUE = 1` (never mutated; the default `tid` argument). -/
def TID_VALUE : Nat := 1

/-- A JSON string literal: the text wrapped in double quotes (the source
never escapes). -/
def quoteJ (s : String) : String := "\"" ++ s ++ "\""

/-- One `"key": value` member, colon followed by one space as in every
`sprintf` format of the source. -/
def memStr (k v : String) : String := quoteJ k ++ ": " ++ v

/-- Members joined by `", "`; models the source's argument loop, which writes
a pair and appends `", "` whenever the pair is not the last one. -/
def sepJoin : List String → String
  | [] => ""
  | [m] => m
  | m :: m' :: ms => m ++ ", " ++ sepJoin (m' :: ms)

/-- An object literal `{` members `}` exactly as the `sprintf` formats without
an `args` group produce it. -/
def objStr (ms : List String) : String := "\x7b" ++ sepJoin ms ++ "\x7d"

/-- An object literal `{` members ` }` — the formats with an `args` group end
in `"} },\n"`, i.e. a space before the outer closing brace. -/
def objStrSp (ms : List String) : String := "\x7b" ++ sepJoin ms ++ " \x7d"

/-- The nested `args` object: `{ ` pairs `}` (the formats write `"args\": { `
then the pair loop then the first `}` of `"} },\n"`). -/
def argsObj (ks vs : List String) : String :=
  "\x7b " ++ sepJoin (List.zipWith memStr ks vs) ++ "\x7d"

/-- A buffered record: the rendered object plus the trailing `",\n"`
separator every `sprintf` format ends with. -/
def recOf (obj : String) : String := obj ++ ",\n"

/-- Object of `trace_event_start` without arguments:
`{"name": "%s", "cat": "%s", "ph": "B", "pid": %i, "tid": %i, "ts": %i}`. -/
def eventStartObj (name cat : String) (tid ts : Int) : String :=
  objStr [memStr "name" (quoteJ name), memStr "cat" (quoteJ cat),
    memStr "ph" (quoteJ "B"), memStr "pid" (intToString PID_VALUE),
    memStr "tid" (intToString tid), memStr "ts" (intToString ts)]

/-- Object of `trace_event_start` with arguments: the same fields followed by
`, "args": { ` pairs `} }`. -/
def eventStartArgsObj (name cat : String) (ks vs : List String) (tid ts : Int) : String :=
  objStrSp [memStr "name" (quoteJ name), memStr "cat" (quoteJ cat),
    memStr "ph" (quoteJ "B"), memStr "pid" (intToString PID_VALUE),
    memStr "tid" (intToString tid), memStr "ts" (intToString ts),
    memStr "args" (argsObj ks vs)]

/-- Object of `trace_event_end` without arguments:
`{"ph": "E", "pid": %i, "tid": %i, "ts": %i}`. -/
def eventEndObj (tid ts : Int) : String :=
  objStr [memStr "ph" (quoteJ "E"), memStr "pid" (intToString PID_VALUE),
    memStr "tid" (intToString tid), memStr "ts" (intToString ts)]

/-- Object of `trace_event_end` with arguments. -/
def eventEndArgsObj (ks vs : List String) (tid ts : Int) : String :=
  objStrSp [memStr "ph" (quoteJ "E"), memStr "pid" (intToString PID_VALUE),
    memStr "tid" (intToString tid), memStr "ts" (intToString ts),
    memStr "args" (argsObj ks vs)]

/-- Object of `trace_object_new`:
`{"name": "%s", "ph": "N", "pid": %i, "tid": %i, "id": %PRIuPTR, "ts": %i}`;
the identity is the pointer cast to `uintptr_t` (64-bit unsigned decimal). -/
def objectNewObj (name : String) (id : Nat) (tid ts : Int) : String :=
  objStr [memStr "name" (quoteJ name), memStr "ph" (quoteJ "N"),
    memStr "pid" (intToString PID_VALUE), memStr "tid" (intToString tid),
    memStr "id" (natToString (id % 2 ^ 64)), memStr "ts" (intToString ts)]

/-- Object of `trace_object_gone` (same as `trace_object_new` with tag `D`). -/
def objectGoneObj (name : String) (id : Nat) (tid ts : Int) : String :=
  objStr [memStr "name" (quoteJ name), memStr "ph" (quoteJ "D"),
    memStr "pid" (intToString PID_VALUE), memStr "tid" (intToString tid),
    memStr "id" (natToString (id % 2 ^ 64)), memStr "ts" (intToString ts)]

/-- Object of `trace_instant_global`:
`{"name": "%s", "ph": "i", "pid": %i, "tid": %i, "s": "g", "ts": %i}`. -/
def instantObj (name : String) (tid ts : Int) : String :=
  objStr [memStr "name" (quoteJ name), memStr "ph" (quoteJ "i"),
    memStr "pid" (intToString PID_VALUE), memStr "tid" (intToString tid),
    memStr "s" (quoteJ "g"), memStr "ts" (intToString ts)]

/-- Object of `trace_counter`:
`{"name": "%s", "ph": "C", "pid": %i, "tid": %i, "ts": %i, "args": { ` pairs `} }`. -/
def counterObj (name : String) (ks vs : List String) (tid ts : Int) : String :=
  objStrSp [memStr "name" (quoteJ name), memStr "ph" (quoteJ "C"),
    memStr "pid" (intToString PID_VALUE), memStr "tid" (intToString tid),
    memStr "ts" (intToString ts), memStr "args" (argsObj ks vs)]

/-- `std::cerr` message of `trace_start` when the file cannot be opened. -/
def openErrMsg (filename : String) : String :=
  "Error: Unable to open file \"" ++ filename ++ "\" for trace output.\n"

/-- `std::cerr` message of the with-arguments `trace_event_start` on a length
mismatch. -/
def mismatchStartMsg (name : String) : String :=
  "Error: Argument lists for " ++ name ++
    " in trace_event_start are not the same size; ignoring them.\n"

/-- `std::cerr` message of the with-arguments `trace_event_end` on a length
mismatch. -/
def mismatchEndMsg : String :=
  "Error: Argument lists in trace_event_end are not the same size; ignoring them.\n"

/-- `std::cerr` message of `trace_counter` on a length mismatch. -/
def mismatchCounterMsg (name : String) : String :=
  "Error: Argument lists for " ++ name ++
    " in trace_counter are not the same size; ignoring this event.\n"

/-- The `std::ofstream traceFile`: which path is open, and the fail state
(`failbit`). -/
structure OStream where
  openPath : Option String
  fail : Bool
deriving DecidableEq

/-- The static state of namespace `trace`, plus the file system and the
clock tape. -/
structure TraceState where
  traceActive : Bool
  dataVector : List String
  cap : Nat
  stream : OStream
  files : List (String × String)
  clockInit : Bool
  startTime : Nat
  clock : List Nat
  errLog : List String
deriving DecidableEq

/-- State at process startup: statics zero-initialised, no file open, no
file written. -/
def initState (clock : List Nat) : TraceState :=
  { traceActive := false, dataVector := [], cap := 0,
    stream := ⟨none, false⟩, files := [], clockInit := false,
    startTime := 0, clock := clock, errLog := [] }

/-- Append `s` to the file at path `p` (creating it if absent). -/
def fsWrite (fs : List (String × String)) (p s : String) : List (String × String) :=
  match fs with
  | [] => [(p, s)]
  | (q, c) :: rest => if q = p then (q, c ++ s) :: rest else (q, c) :: fsWrite rest p s

/-- Truncate (or create) the file at path `p` to content `s`. -/
def fsSet (fs : List (String × String)) (p s : String) : List (String × String) :=
  match fs with
  | [] => [(p, s)]
  | (q, c) :: rest => if q = p then (q, s) :: rest else (q, c) :: fsSet rest p s

/-- The content of the file at path `p`, if it exists. -/
def fsFind (fs : List (String × String)) (p : String) : Option String :=
  match fs with
  | [] => none
  | (q, c) :: rest => if q = p then some c else fsFind rest p

/-- The content of the file at path `p` (empty if absent). -/
def fsGet (fs : List (String × String)) (p : String) : String :=
  (fsFind fs p).getD ""

/-- The next `Clock::now()` reading. -/
def clockPeek (st : TraceState) : Nat := st.clock.headD 0

/-- Consume one `Clock::now()` reading. -/
def clockTick (st : TraceState) : TraceState := { st with clock := st.clock.tail }

/-- `traceFile << s`: appends to the open file unless the stream is failed or
closed (a write on a failed or closed stream produces nothing). -/
def streamWrite (st : TraceState) (s : String) : TraceState :=
  match st.stream.openPath with
  | some p => if st.stream.fail then st else { st with files := fsWrite st.files p s }
  | none => st

/-- `traceFile.open(filename)`: on an already open stream the open fails and
sets `failbit`; otherwise, if the OS allows it (`ok`), the file is opened
and truncated and the stream flags are cleared, else `failbit` is set. -/
def ofstreamOpen (filename : String) (ok : Bool) (st : TraceState) : TraceState :=
  match st.stream.openPath with
  | some q => { st with stream := ⟨some q, true⟩ }
  | none =>
    if ok then
      { st with stream := ⟨some filename, false⟩, files := fsSet st.files filename "" }
    else
      { st with stream := ⟨none, true⟩ }

/-- Append one rendered record to `dataVector` (`push_back`). -/
def pushRec (st : TraceState) (r : String) : TraceState :=
  { st with dataVector := st.dataVector ++ [r] }

/-- `s.pop_back()`: remove the last character of a string. -/
def strPopBack (s : String) : String := ⟨s.data.dropLast⟩

/-- `trace_flush`: write every buffered record to the stream in order, then
clear the vector (capacity retained). -/
def traceFlush (st : TraceState) : TraceState :=
  { st.dataVector.foldl streamWrite st with dataVector := [] }

/-- `trace_start(filename)`: open the file; on success reserve the vector's
capacity, write the opening `"[\n"`, capture `startTime` once per process
(first successful start), set `traceActive` and return `true`; on failure
report to `cerr` and return `false`. -/
def traceStart (filename : String) (ok : Bool) (st : TraceState) : Bool × TraceState :=
  let st1 := ofstreamOpen filename ok st
  if st1.stream.openPath.isSome then
    let st2 := streamWrite { st1 with cap := max st1.cap TRACE_MAX } "[\n"
    let st3 :=
      if st2.clockInit then st2
      else { clockTick st2 with startTime := clockPeek st2, clockInit := true }
    (true, { st3 with traceActive := true })
  else
    (false, { st1 with errLog := st1.errLog ++ [openErrMsg filename] })

/-- `trace_end`: remove the two trailing separator characters of the *last
buffered* record (`dataVector.back()` twice `pop_back()` — undefined
behaviour, `none`, when the buffer is empty or the record is shorter than
two characters), flush, write the closing `"\n]"`, close the file, clear
`traceActive`. -/
def traceEnd (st : TraceState) : Option TraceState :=
  match st.dataVector.getLast? with
  | none => none
  | some lastRec =>
    if lastRec.length < 2 then none
    else
      let st1 := { st with
        dataVector := st.dataVector.dropLast ++ [strPopBack (strPopBack lastRec)] }
      let st2 := streamWrite (traceFlush st1) "\n]"
      some { st2 with stream := ⟨none, st2.stream.fail⟩, traceActive := false }

/-- The capacity check shared by every emit operation:
`if (dataVector.size() == dataVector.capacity()) trace_flush();`. -/
def capFlush (st : TraceState) : TraceState :=
  if st.dataVector.length = st.cap then traceFlush st else st

/-- `trace_event_start(name, categories, tid)` (no arguments). -/
def traceEventStart (name cat : String) (tid : Nat) (st : TraceState) : TraceState :=
  if st.traceActive = false then st
  else
    let st1 := capFlush st
    pushRec (clockTick st1)
      (recOf (eventStartObj name cat (toInt32 tid) (tsRender st1.startTime (clockPeek st1))))

/-- `trace_event_start(name, categories, argumentNames, argumentValues, tid)`:
on a length mismatch report to `cerr` and re-emit without arguments (note:
the recursive call passes no `tid`, so the default `TID_VALUE` is used). -/
def traceEventStartArgs (name cat : String) (argNames argValues : List String)
    (tid : Nat) (st : TraceState) : TraceState :=
  if st.traceActive = false then st
  else
    let st1 := capFlush st
    if argNames.length = argValues.length then
      pushRec (clockTick st1)
        (recOf (eventStartArgsObj name cat argNames argValues (toInt32 tid)
          (tsRender st1.startTime (clockPeek st1))))
    else
      traceEventStart name cat TID_VALUE
        { st1 with errLog := st1.errLog ++ [mismatchStartMsg name] }

/-- `trace_event_end(tid)` (no arguments). -/
def traceEventEnd (tid : Nat) (st : TraceState) : TraceState :=
  if st.traceActive = false then st
  else
    let st1 := capFlush st
    pushRec (clockTick st1)
      (recOf (eventEndObj (toInt32 tid) (tsRender st1.startTime (clockPeek st1))))

/-- `trace_event_end(argumentNames, argumentValues, tid)`: on a length
mismatch report to `cerr` and re-emit without arguments (default `tid`). -/
def traceEventEndArgs (argNames argValues : List String) (tid : Nat)
    (st : TraceState) : TraceState :=
  if st.traceActive = false then st
  else
    let st1 := capFlush st
    if argNames.length = argValues.length then
      pushRec (clockTick st1)
        (recOf (eventEndArgsObj argNames argValues (toInt32 tid)
          (tsRender st1.startTime (clockPeek st1))))
    else
      traceEventEnd TID_VALUE { st1 with errLog := st1.errLog ++ [mismatchEndMsg] }

/-- `trace_object_new(name, obj_pointer, tid)`. -/
def traceObjectNew (name : String) (ptr : Nat) (tid : Nat) (st : TraceState) : TraceState :=
  if st.traceActive = false then st
  else
    let st1 := capFlush st
    pushRec (clockTick st1)
      (recOf (objectNewObj name ptr (toInt32 tid) (tsRender st1.startTime (clockPeek st1))))

/-- `trace_object_gone(name, obj_pointer, tid)`. -/
def traceObjectGone (name : String) (ptr : Nat) (tid : Nat) (st : TraceState) : TraceState :=
  if st.traceActive = false then st
  else
    let st1 := capFlush st
    pushRec (clockTick st1)
      (recOf (objectGoneObj name ptr (toInt32 tid) (tsRender st1.startTime (clockPeek st1))))

/-- `trace_instant_global(name, tid)`. -/
def traceInstantGlobal (name : String) (tid : Nat) (st : TraceState) : TraceState :=
  if st.traceActive = false then st
  else
    let st1 := capFlush st
    pushRec (clockTick st1)
      (recOf (instantObj name (toInt32 tid) (tsRender st1.startTime (clockPeek st1))))

/-- `trace_counter(name, key, value, tid)`: on a length mismatch report to
`cerr` and emit nothing (the source's re-emit is commented out: `//return`). -/
def traceCounter (name : String) (key value : List String) (tid : Nat)
    (st : TraceState) : TraceState :=
  if st.traceActive = false then st
  else
    let st1 := capFlush st
    if key.length = value.length then
      pushRec (clockTick st1)
        (recOf (counterObj name key value (toInt32 tid)
          (tsRender st1.startTime (clockPeek st1))))
    else
      { st1 with errLog := st1.errLog ++ [mismatchCounterMsg name] }

/-- One call of the public library surface.  `start` carries whether the OS
lets the file open succeed; `fin` is `trace_end`. -/
inductive Op where
  | start (path : String) (ok : Bool)
  | flush
  | fin
  | eventStart (name cat : String) (tid : Nat)
  | eventStartArgs (name cat : String) (ks vs : List String) (tid : Nat)
  | eventEnd (tid : Nat)
  | eventEndArgs (ks vs : List String) (tid : Nat)
  | objectNew (name : String) (ptr : Nat) (tid : Nat)
  | objectGone (name : String) (ptr : Nat) (tid : Nat)
  | instantGlobal (name : String) (tid : Nat)
  | counter (name : String) (ks vs : List String) (tid : Nat)
deriving DecidableEq

/-- Step function: run one library call.  `none` is reached only through
`trace_end`'s undefined behaviour on an empty buffer. -/
def traceOp : Op → TraceState → Option TraceState
  | .start p ok, st => some (traceStart p ok st).2
  | .flush, st => some (traceFlush st)
  | .fin, st => traceEnd st
  | .eventStart n c t, st => some (traceEventStart n c t st)
  | .eventStartArgs n c ks vs t, st => some (traceEventStartArgs n c ks vs t st)
  | .eventEnd t, st => some (traceEventEnd t st)
  | .eventEndArgs ks vs t, st => some (traceEventEndArgs ks vs t st)
  | .objectNew n p t, st => some (traceObjectNew n p t st)
  | .objectGone n p t, st => some (traceObjectGone n p t st)
  | .instantGlobal n t, st => some (traceInstantGlobal n t st)
  | .counter n ks vs t, st => some (traceCounter n ks vs t st)

/-- Run a sequence of library calls. -/
def execOps : List Op → TraceState → Option TraceState
  | [], st => some st
  | op :: ops, st => (traceOp op st).bind (execOps ops)

/-- True for the emit operations (not `start`, `flush` or `fin`). -/
def isEmitOp : Op → Bool
  | .start _ _ => false
  | .flush => false
  | .fin => false
  | _ => true

/-- True for the operations permitted between `start` and `end` in claim C1:
any emit, or an explicit `flush`. -/
def isSessionOp : Op → Bool
  | .start _ _ => false
  | .fin => false
  | _ => true

/-- True for an emit that certainly appends one record to the buffer: every
emit except a `counter` whose key and value lists differ in length (that one
is dropped). -/
def pushesOp : Op → Bool
  | .counter _ ks vs _ => ks.length = vs.length
  | op => isEmitOp op

/-- Modelled from the spec: "emitting them with no capacity limit" (§8, claim
C3) — `trace_event_start` with the capacity-triggered implicit flush removed;
everything else as in the source. -/
def traceEventStartNC (name cat : String) (tid : Nat) (st : TraceState) : TraceState :=
  if st.traceActive = false then st
  else
    pushRec (clockTick st)
      (recOf (eventStartObj name cat (toInt32 tid) (tsRender st.startTime (clockPeek st))))

/-- Modelled from the spec: the with-arguments `trace_event_start` with the
capacity-triggered implicit flush removed. -/
def traceEventStartArgsNC (name cat : String) (argNames argValues : List String)
    (tid : Nat) (st : TraceState) : TraceState :=
  if st.traceActive = false then st
  else
    if argNames.length = argValues.length then
      pushRec (clockTick st)
        (recOf (eventStartArgsObj name cat argNames argValues (toInt32 tid)
          (tsRender st.startTime (clockPeek st))))
    else
      traceEventStartNC name cat TID_VALUE
        { st with errLog := st.errLog ++ [mismatchStartMsg name] }

/-- Modelled from the spec: `trace_event_end` with the capacity-triggered
implicit flush removed. -/
def traceEventEndNC (tid : Nat) (st : TraceState) : TraceState :=
  if st.traceActive = false then st
  else
    pushRec (clockTick st)
      (recOf (eventEndObj (toInt32 tid) (tsRender st.startTime (clockPeek st))))

/-- Modelled from the spec: the with-arguments `trace_event_end` with the
capacity-triggered implicit flush removed. -/
def traceEventEndArgsNC (argNames argValues : List String) (tid : Nat)
    (st : TraceState) : TraceState :=
  if st.traceActive = false then st
  else
    if argNames.length = argValues.length then
      pushRec (clockTick st)
        (recOf (eventEndArgsObj argNames argValues (toInt32 tid)
          (tsRender st.startTime (clockPeek st))))
    else
      traceEventEndNC TID_VALUE { st with errLog := st.errLog ++ [mismatchEndMsg] }

/-- Modelled from the spec: `trace_object_new` with the capacity-triggered
implicit flush removed. -/
def traceObjectNewNC (name : String) (ptr : Nat) (tid : Nat) (st : TraceState) : TraceState :=
  if st.traceActive = false then st
  else
    pushRec (clockTick st)
      (recOf (objectNewObj name ptr (toInt32 tid) (tsRender st.startTime (clockPeek st))))

/-- Modelled from the spec: `trace_object_gone` with the capacity-triggered
implicit flush removed. -/
def traceObjectGoneNC (name : String) (ptr : Nat) (tid : Nat) (st : TraceState) : TraceState :=
  if st.traceActive = false then st
  else
    pushRec (clockTick st)
      (recOf (objectGoneObj name ptr (toInt32 tid) (tsRender st.startTime (clockPeek st))))

/-- Modelled from the spec: `trace_instant_global` with the capacity-triggered
implicit flush removed. -/
def traceInstantGlobalNC (name : String) (tid : Nat) (st : TraceState) : TraceState :=
  if st.traceActive = false then st
  else
    pushRec (clockTick st)
      (recOf (instantObj name (toInt32 tid) (tsRender st.startTime (clockPeek st))))

/-- Modelled from the spec: `trace_counter` with the capacity-triggered
implicit flush removed. -/
def traceCounterNC (name : String) (key value : List String) (tid : Nat)
    (st : TraceState) : TraceState :=
  if st.traceActive = false then st
  else
    if key.length = value.length then
      pushRec (clockTick st)
        (recOf (counterObj name key value (toInt32 tid)
          (tsRender st.startTime (clockPeek st))))
    else
      { st with errLog := st.errLog ++ [mismatchCounterMsg name] }

/-- Modelled from the spec: the step function with no capacity limit on the
buffer (§8's comparison semantics for claim C3); `start`, `flush` and `fin`
are unchanged. -/
def traceOpNC : Op → TraceState → Option TraceState
  | .start p ok, st => some (traceStart p ok st).2
  | .flush, st => some (traceFlush st)
  | .fin, st => traceEnd st
  | .eventStart n c t, st => some (traceEventStartNC n c t st)
  | .eventStartArgs n c ks vs t, st => some (traceEventStartArgsNC n c ks vs t st)
  | .eventEnd t, st => some (traceEventEndNC t st)
  | .eventEndArgs ks vs t, st => some (traceEventEndArgsNC ks vs t st)
  | .objectNew n p t, st => some (traceObjectNewNC n p t st)
  | .objectGone n p t, st => some (traceObjectGoneNC n p t st)
  | .instantGlobal n t, st => some (traceInstantGlobalNC n t st)
  | .counter n ks vs t, st => some (traceCounterNC n ks vs t st)

/-- Modelled from the spec: run a sequence of library calls with no capacity
limit. -/
def execOpsNC : List Op → TraceState → Option TraceState
  | [], st => some st
  | op :: ops, st => (traceOpNC op st).bind (execOpsNC ops)

/-- A JSON whitespace character. -/
def jsonWsChar (c : Char) : Prop := c = ' ' ∨ c = '\n' ∨ c = '\t' ∨ c = '\r'

/-- A character that may stand unescaped inside a JSON string literal:
not a quote, not a backslash, not a control character. -/
def jsonSafeChar (c : Char) : Prop := c ≠ '"' ∧ c ≠ '\\' ∧ 32 ≤ c.toNat

/-- All characters of the list are JSON whitespace. -/
def WSl (l : List Char) : Prop := ∀ c ∈ l, jsonWsChar c

/-- All characters of the string may stand unescaped inside a JSON string
literal. -/
def SafeStr (s : String) : Prop := ∀ c ∈ s.data, jsonSafeChar c

instance (c : Char) : Decidable (jsonWsChar c) := by
  unfold jsonWsChar; infer_instance

instance (c : Char) : Decidable (jsonSafeChar c) := by
  unfold jsonSafeChar; infer_instance

instance (l : List Char) : Decidable (WSl l) := by
  unfold WSl; infer_instance

instance (s : String) : Decidable (SafeStr s) := by
  unfold SafeStr; infer_instance

mutual

/-- Character lists that form one syntactically valid JSON value, in a
grammar that is a subset of RFC 8259 JSON (string literals without escapes,
integer numbers, `true`/`false`/`null`, objects, arrays, with whitespace in
the standard token positions): everything generated here parses as JSON. -/
inductive JValue : List Char → Prop where
  | str (b : List Char) : (∀ c ∈ b, jsonSafeChar c) → JValue ('"' :: b ++ ['"'])
  | natNum (n : Nat) : JValue (natToString n).data
  | negNum (n : Nat) : JValue ('-' :: (natToString n).data)
  | tru : JValue ['t', 'r', 'u', 'e']
  | fls : JValue ['f', 'a', 'l', 's', 'e']
  | nul : JValue ['n', 'u', 'l', 'l']
  | obj (l : List Char) : JObject l → JValue l
  | arr (l : List Char) : JArray l → JValue l

/-- One JSON object member: `"key" ws : ws value`. -/
inductive JMember : List Char → Prop where
  | mk (k w1 w2 v : List Char) : (∀ c ∈ k, jsonSafeChar c) → WSl w1 → WSl w2 →
      JValue v → JMember ('"' :: k ++ '"' :: (w1 ++ ':' :: (w2 ++ v)))

/-- One or more JSON object members separated by `ws , ws`. -/
inductive JMembers : List Char → Prop where
  | single (m : List Char) : JMember m → JMembers m
  | cons (m w1 w2 rest : List Char) : JMember m → WSl w1 → WSl w2 →
      JMembers rest → JMembers (m ++ w1 ++ ',' :: (w2 ++ rest))

/-- A JSON object literal. -/
inductive JObject : List Char → Prop where
  | empty (w : List Char) : WSl w → JObject ('{' :: w ++ ['}'])
  | members (w1 ms w2 : List Char) : WSl w1 → JMembers ms → WSl w2 →
      JObject ('{' :: w1 ++ ms ++ w2 ++ ['}'])

/-- One or more JSON values separated by `ws , ws`. -/
inductive JElems : List Char → Prop where
  | single (v : List Char) : JValue v → JElems v
  | cons (v w1 w2 rest : List Char) : JValue v → WSl w1 → WSl w2 →
      JElems rest → JElems (v ++ w1 ++ ',' :: (w2 ++ rest))

/-- A JSON array literal. -/
inductive JArray : List Char → Prop where
  | empty (w : List Char) : WSl w → JArray ('[' :: w ++ [']'])
  | elems (w1 vs w2 : List Char) : WSl w1 → JElems vs → WSl w2 →
      JArray ('[' :: w1 ++ vs ++ w2 ++ [']'])

end

/-- One or more JSON objects separated by `ws , ws`. -/
inductive JObjectsSep : List Char → Prop where
  | single (o : List Char) : JObject o → JObjectsSep o
  | cons (o w1 w2 rest : List Char) : JObject o → WSl w1 → WSl w2 →
      JObjectsSep rest → JObjectsSep (o ++ w1 ++ ',' :: (w2 ++ rest))

/-- A syntactically valid JSON array all of whose elements are objects. -/
inductive JArrayOfObjects : List Char → Prop where
  | empty (w : List Char) : WSl w → JArrayOfObjects ('[' :: w ++ [']'])
  | objects (w1 os w2 : List Char) : WSl w1 → JObjectsSep os → WSl w2 →
      JArrayOfObjects ('[' :: w1 ++ os ++ w2 ++ [']'])

/-- The per-operation safety hypotheses of claim C1's amended statement:
caller-supplied names, categories and argument names may stand inside a JSON
string literal (the source never escapes), and caller-supplied argument
values are valid JSON literals (the source embeds them raw, as §3 of the
spec notes). -/
def SafeOp : Op → Prop
  | .start _ _ => True
  | .flush => True
  | .fin => True
  | .eventStart n c _ => SafeStr n ∧ SafeStr c
  | .eventStartArgs n c ks vs _ =>
      SafeStr n ∧ SafeStr c ∧ (∀ k ∈ ks, SafeStr k) ∧ ∀ v ∈ vs, JValue v.data
  | .eventEnd _ => True
  | .eventEndArgs ks vs _ => (∀ k ∈ ks, SafeStr k) ∧ ∀ v ∈ vs, JValue v.data
  | .objectNew n _ _ => SafeStr n
  | .objectGone n _ _ => SafeStr n
  | .instantGlobal n _ => SafeStr n
  | .counter n ks vs _ => SafeStr n ∧ (∀ k ∈ ks, SafeStr k) ∧ ∀ v ∈ vs, JValue v.data

/-- Concatenation of a list of strings. -/
def strConcat : List String → String
  | [] => ""
  | s :: ss => s ++ strConcat ss

/-- Concatenation of rendered records (object plus separator) for a list of
objects. -/
def joinRecs (objs : List String) : String := strConcat (objs.map recOf)

/-- The invariant of an open trace session at path `p` (claim C1): the file
holds the opening bracket followed by the already flushed records, the buffer
holds the pending records, and every record is a valid JSON object plus the
`",\n"` separator. -/
def SessionInv (p : String) (st : TraceState) : Prop :=
  st.traceActive = true ∧ st.stream = ⟨some p, false⟩ ∧
  ∃ written pending : List String,
    (∀ o ∈ written, JObject o.data) ∧ (∀ o ∈ pending, JObject o.data) ∧
    fsFind st.files p = some ("[\n" ++ joinRecs written) ∧
    st.dataVector = pending.map recOf

/-- The simulation relation of claim C3 between the capped run (state `s`) and
the no-capacity-limit run (state `t`) during the emit phase of one session at
path `p`: the two states agree except that the capped run may have already
flushed a prefix `fl` of the records the no-limit run still buffers. -/
def NoCapInv (p : String) (s t : TraceState) : Prop :=
  s.traceActive = true ∧ s.stream = ⟨some p, false⟩ ∧
  t.traceActive = s.traceActive ∧ t.stream = s.stream ∧ t.cap = s.cap ∧
  t.clockInit = s.clockInit ∧ t.startTime = s.startTime ∧ t.clock = s.clock ∧
  t.errLog = s.errLog ∧
  (∀ r ∈ t.dataVector, ∃ o, r = recOf o) ∧
  ∃ fl tc, t.dataVector = fl ++ s.dataVector ∧ fsFind t.files p = some tc ∧
    s.files = fsSet t.files p (tc ++ strConcat fl)

/-! Basic lemmas about strings and the file-system model. -/

theorem natToString_zero : natToString 0 = "0" := by decide

theorem natToString_ten_thousand : natToString 10000 = "10000" := by decide

theorem intToString_zero : intToString 0 = "0" := by decide

theorem intToString_min_int32 : intToString (-2147483648) = "-2147483648" := by decide

theorem strEq_of_data {s t : String} (h : s.data = t.data) : s = t := by
  cases s; cases t; exact congrArg String.mk h

theorem data_recOf (o : String) : (recOf o).data = o.data ++ [',', '\n'] := by
  rw [recOf, String.data_append]

theorem length_recOf (o : String) : (recOf o).length = o.length + 2 := by
  simp [recOf]
  rfl

theorem strPopBack_strPopBack_recOf (o : String) :
    strPopBack (strPopBack (recOf o)) = o := by
  apply strEq_of_data
  simp [strPopBack, data_recOf]

theorem strConcat_append (a b : List String) :
    strConcat (a ++ b) = strConcat a ++ strConcat b := by
  induction a with
  | nil => simp [strConcat]
  | cons s ss ih => simp [strConcat, ih, String.append_assoc]

theorem joinRecs_append (a b : List String) :
    joinRecs (a ++ b) = joinRecs a ++ joinRecs b := by
  simp [joinRecs, strConcat_append]

theorem fsFind_fsSet (fs : List (String × String)) (p s : String) :
    fsFind (fsSet fs p s) p = some s := by
  induction fs with
  | nil => simp [fsSet, fsFind]
  | cons hd tl ih =>
    obtain ⟨q, c⟩ := hd
    by_cases h : q = p <;> simp [fsSet, fsFind, h, ih]

theorem fsSet_fsSet (fs : List (String × String)) (p s s' : String) :
    fsSet (fsSet fs p s) p s' = fsSet fs p s' := by
  induction fs with
  | nil => simp [fsSet]
  | cons hd tl ih =>
    obtain ⟨q, c⟩ := hd
    by_cases h : q = p <;> simp [fsSet, h, ih]

theorem fsSet_of_fsFind {fs : List (String × String)} {p c : String}
    (h : fsFind fs p = some c) : fsSet fs p c = fs := by
  induction fs with
  | nil => simp [fsFind] at h
  | cons hd tl ih =>
    obtain ⟨q, d⟩ := hd
    by_cases hq : q = p
    · simp [fsFind, hq] at h
      simp [fsSet, hq, h]
    · simp [fsFind, hq] at h
      simp [fsSet, hq, ih h]

theorem fsWrite_of_fsFind {fs : List (String × String)} {p c : String}
    (h : fsFind fs p = some c) (s : String) : fsWrite fs p s = fsSet fs p (c ++ s) := by
  induction fs with
  | nil => simp [fsFind] at h
  | cons hd tl ih =>
    obtain ⟨q, d⟩ := hd
    by_cases hq : q = p
    · simp [fsFind, hq] at h
      simp [fsWrite, fsSet, hq, h]
    · simp [fsFind, hq] at h
      simp [fsWrite, fsSet, hq, ih h]

theorem fsGet_of_fsFind {fs : List (String × String)} {p c : String}
    (h : fsFind fs p = some c) : fsGet fs p = c := by
  simp [fsGet, h]

/-! Frame lemmas: which state fields each primitive leaves unchanged. -/

theorem streamWrite_shape (st : TraceState) (s : String) :
    streamWrite st s = { st with files := (streamWrite st s).files } := by
  unfold streamWrite
  rcases st.stream.openPath with _ | p <;> simp
  split <;> rfl

@[simp] theorem streamWrite_traceActive (st : TraceState) (s : String) :
    (streamWrite st s).traceActive = st.traceActive :=
  by rw [streamWrite_shape st s]

@[simp] theorem streamWrite_dataVector (st : TraceState) (s : String) :
    (streamWrite st s).dataVector = st.dataVector :=
  by rw [streamWrite_shape st s]

@[simp] theorem streamWrite_cap (st : TraceState) (s : String) :
    (streamWrite st s).cap = st.cap :=
  by rw [streamWrite_shape st s]

@[simp] theorem streamWrite_stream (st : TraceState) (s : String) :
    (streamWrite st s).stream = st.stream :=
  by rw [streamWrite_shape st s]

@[simp] theorem streamWrite_clockInit (st : TraceState) (s : String) :
    (streamWrite st s).clockInit = st.clockInit :=
  by rw [streamWrite_shape st s]

@[simp] theorem streamWrite_startTime (st : TraceState) (s : String) :
    (streamWrite st s).startTime = st.startTime :=
  by rw [streamWrite_shape st s]

@[simp] theorem streamWrite_clock (st : TraceState) (s : String) :
    (streamWrite st s).clock = st.clock :=
  by rw [streamWrite_shape st s]

@[simp] theorem streamWrite_errLog (st : TraceState) (s : String) :
    (streamWrite st s).errLog = st.errLog :=
  by rw [streamWrite_shape st s]

theorem foldl_streamWrite_shape (l : List String) (st : TraceState) :
    ∃ fs, l.foldl streamWrite st = { st with files := fs } := by
  induction l generalizing st with
  | nil => exact ⟨st.files, by cases st; rfl⟩
  | cons r rs ih =>
    obtain ⟨fs, hfs⟩ := ih (streamWrite st r)
    refine ⟨fs, ?_⟩
    rw [List.foldl_cons, hfs, streamWrite_shape st r]

theorem traceFlush_shape (st : TraceState) :
    traceFlush st = { st with files := (traceFlush st).files, dataVector := [] } := by
  unfold traceFlush
  obtain ⟨fs, hfs⟩ := foldl_streamWrite_shape st.dataVector st
  rw [hfs]

@[simp] theorem traceFlush_dataVector (st : TraceState) :
    (traceFlush st).dataVector = [] :=
  by rw [traceFlush_shape st]

@[simp] theorem traceFlush_traceActive (st : TraceState) :
    (traceFlush st).traceActive = st.traceActive :=
  by rw [traceFlush_shape st]

@[simp] theorem traceFlush_cap (st : TraceState) :
    (traceFlush st).cap = st.cap :=
  by rw [traceFlush_shape st]

@[simp] theorem traceFlush_stream (st : TraceState) :
    (traceFlush st).stream = st.stream :=
  by rw [traceFlush_shape st]

@[simp] theorem traceFlush_clockInit (st : TraceState) :
    (traceFlush st).clockInit = st.clockInit :=
  by rw [traceFlush_shape st]

@[simp] theorem traceFlush_startTime (st : TraceState) :
    (traceFlush st).startTime = st.startTime :=
  by rw [traceFlush_shape st]

@[simp] theorem traceFlush_clock (st : TraceState) :
    (traceFlush st).clock = st.clock :=
  by rw [traceFlush_shape st]

@[simp] theorem traceFlush_errLog (st : TraceState) :
    (traceFlush st).errLog = st.errLog :=
  by rw [traceFlush_shape st]

theorem capFlush_shape (st : TraceState) :
    capFlush st = { st with files := (capFlush st).files, dataVector := (capFlush st).dataVector } := by
  unfold capFlush
  split
  · rw [traceFlush_shape st]
  · cases st; rfl

@[simp] theorem capFlush_traceActive (st : TraceState) :
    (capFlush st).traceActive = st.traceActive :=
  by rw [capFlush_shape st]

@[simp] theorem capFlush_cap (st : TraceState) :
    (capFlush st).cap = st.cap :=
  by rw [capFlush_shape st]

@[simp] theorem capFlush_stream (st : TraceState) :
    (capFlush st).stream = st.stream :=
  by rw [capFlush_shape st]

@[simp] theorem capFlush_clockInit (st : TraceState) :
    (capFlush st).clockInit = st.clockInit :=
  by rw [capFlush_shape st]

@[simp] theorem capFlush_startTime (st : TraceState) :
    (capFlush st).startTime = st.startTime :=
  by rw [capFlush_shape st]

@[simp] theorem capFlush_clock (st : TraceState) :
    (capFlush st).clock = st.clock :=
  by rw [capFlush_shape st]

@[simp] theorem capFlush_errLog (st : TraceState) :
    (capFlush st).errLog = st.errLog :=
  by rw [capFlush_shape st]

theorem traceFlush_of_empty {st : TraceState} (h : st.dataVector = []) :
    traceFlush st = st := by
  unfold traceFlush
  rw [h]
  cases st
  simp_all

theorem capFlush_of_ne {st : TraceState} (h : st.dataVector.length ≠ st.cap) :
    capFlush st = st := by
  unfold capFlush
  simp [h]

/-! The rendered records are valid JSON objects. -/

theorem data_quoteJ (s : String) : (quoteJ s).data = '"' :: (s.data ++ ['"']) := by
  simp [quoteJ, String.data_append]

theorem jvalue_quoteJ {s : String} (h : SafeStr s) : JValue (quoteJ s).data := by
  rw [data_quoteJ]
  exact JValue.str s.data h

theorem jvalue_intToString (i : Int) : JValue (intToString i).data := by
  unfold intToString
  split
  · simpa [String.data_append] using JValue.negNum i.natAbs
  · exact JValue.natNum i.toNat

theorem jvalue_natToString (n : Nat) : JValue (natToString n).data :=
  JValue.natNum n

theorem jmember_memStr {k v : String} (hk : SafeStr k) (hv : JValue v.data) :
    JMember (memStr k v).data := by
  have step := JMember.mk k.data [] [' '] v.data hk (by simp [WSl])
    (by simp [WSl, jsonWsChar]) hv
  have hd : (memStr k v).data = '"' :: k.data ++ '"' :: ([] ++ ':' :: ([' '] ++ v.data)) := by
    simp [memStr, data_quoteJ, String.data_append]
  rw [hd]
  exact step

theorem jmembers_sepJoin (ms : List String) (h : ∀ m ∈ ms, JMember m.data)
    (hne : ms ≠ []) : JMembers (sepJoin ms).data := by
  induction ms with
  | nil => exact absurd rfl hne
  | cons m rest ih =>
    cases rest with
    | nil => simpa [sepJoin] using JMembers.single m.data (h m (by simp))
    | cons m' ms' =>
      have step := JMembers.cons m.data [] [' '] (sepJoin (m' :: ms')).data
        (h m (by simp)) (by simp [WSl]) (by simp [WSl, jsonWsChar])
        (ih (fun x hx => h x (by simp [hx])) (by simp))
      have hd : (sepJoin (m :: m' :: ms')).data =
          m.data ++ [] ++ ',' :: ([' '] ++ (sepJoin (m' :: ms')).data) := by
        simp [sepJoin, String.data_append]
      rw [hd]
      exact step

theorem jobject_objStr {ms : List String} (h : ∀ m ∈ ms, JMember m.data)
    (hne : ms ≠ []) : JObject (objStr ms).data := by
  have step := JObject.members [] (sepJoin ms).data [] (by simp [WSl])
    (jmembers_sepJoin ms h hne) (by simp [WSl])
  have hd : (objStr ms).data = '{' :: [] ++ (sepJoin ms).data ++ [] ++ ['}'] := by
    simp [objStr, String.data_append]
  rw [hd]
  exact step

theorem jobject_objStrSp {ms : List String} (h : ∀ m ∈ ms, JMember m.data)
    (hne : ms ≠ []) : JObject (objStrSp ms).data := by
  have step := JObject.members [] (sepJoin ms).data [' '] (by simp [WSl])
    (jmembers_sepJoin ms h hne) (by simp [WSl, jsonWsChar])
  have hd : (objStrSp ms).data = '{' :: [] ++ (sepJoin ms).data ++ [' '] ++ ['}'] := by
    simp [objStrSp, String.data_append]
  rw [hd]
  exact step

theorem jmember_zipWith {ks vs : List String} (hk : ∀ k ∈ ks, SafeStr k)
    (hv : ∀ v ∈ vs, JValue v.data) :
    ∀ m ∈ List.zipWith memStr ks vs, JMember m.data := by
  induction ks generalizing vs with
  | nil => simp
  | cons k ks' ih =>
    cases vs with
    | nil => simp
    | cons v vs' =>
      intro m hm
      rcases (by simpa using hm : m = memStr k v ∨ m ∈ List.zipWith memStr ks' vs') with h | h
      · subst h
        exact jmember_memStr (hk k (by simp)) (hv v (by simp))
      · exact ih (fun x hx => hk x (by simp [hx])) (fun x hx => hv x (by simp [hx])) m h

theorem jobject_argsObj {ks vs : List String} (hk : ∀ k ∈ ks, SafeStr k)
    (hv : ∀ v ∈ vs, JValue v.data) : JObject (argsObj ks vs).data := by
  cases hz : List.zipWith memStr ks vs with
  | nil =>
    have hd : (argsObj ks vs).data = '{' :: [' '] ++ ['}'] := by
      simp [argsObj, hz, sepJoin, String.data_append]
    rw [hd]
    exact JObject.empty [' '] (by simp [WSl, jsonWsChar])
  | cons m ms' =>
    have hmem : ∀ m' ∈ List.zipWith memStr ks vs, JMember m'.data := jmember_zipWith hk hv
    rw [hz] at hmem
    have step := JObject.members [' '] (sepJoin (m :: ms')).data [] (by simp [WSl, jsonWsChar])
      (jmembers_sepJoin _ hmem (by simp)) (by simp [WSl])
    have hd : (argsObj ks vs).data = '{' :: [' '] ++ (sepJoin (m :: ms')).data ++ [] ++ ['}'] := by
      simp [argsObj, hz, String.data_append]
    rw [hd]
    exact step

theorem jobject_eventStartObj {name cat : String} (tid ts : Int)
    (hn : SafeStr name) (hc : SafeStr cat) : JObject (eventStartObj name cat tid ts).data := by
  apply jobject_objStr _ (by simp [eventStartObj])
  intro m hm
  simp only [eventStartObj, List.mem_cons, List.not_mem_nil, or_false] at hm
  rcases hm with h | h | h | h | h | h <;> subst h
  · exact jmember_memStr (by decide) (jvalue_quoteJ hn)
  · exact jmember_memStr (by decide) (jvalue_quoteJ hc)
  · exact jmember_memStr (by decide) (jvalue_quoteJ (by decide))
  · exact jmember_memStr (by decide) (jvalue_intToString _)
  · exact jmember_memStr (by decide) (jvalue_intToString _)
  · exact jmember_memStr (by decide) (jvalue_intToString _)

theorem jobject_eventStartArgsObj {name cat : String} {ks vs : List String} (tid ts : Int)
    (hn : SafeStr name) (hc : SafeStr cat) (hk : ∀ k ∈ ks, SafeStr k)
    (hv : ∀ v ∈ vs, JValue v.data) :
    JObject (eventStartArgsObj name cat ks vs tid ts).data := by
  apply jobject_objStrSp _ (by simp [eventStartArgsObj])
  intro m hm
  simp only [eventStartArgsObj, List.mem_cons, List.not_mem_nil, or_false] at hm
  rcases hm with h | h | h | h | h | h | h <;> subst h
  · exact jmember_memStr (by decide) (jvalue_quoteJ hn)
  · exact jmember_memStr (by decide) (jvalue_quoteJ hc)
  · exact jmember_memStr (by decide) (jvalue_quoteJ (by decide))
  · exact jmember_memStr (by decide) (jvalue_intToString _)
  · exact jmember_memStr (by decide) (jvalue_intToString _)
  · exact jmember_memStr (by decide) (jvalue_intToString _)
  · exact jmember_memStr (by decide) (JValue.obj _ (jobject_argsObj hk hv))

theorem jobject_eventEndObj (tid ts : Int) : JObject (eventEndObj tid ts).data := by
  apply jobject_objStr _ (by simp [eventEndObj])
  intro m hm
  simp only [eventEndObj, List.mem_cons, List.not_mem_nil, or_false] at hm
  rcases hm with h | h | h | h <;> subst h
  · exact jmember_memStr (by decide) (jvalue_quoteJ (by decide))
  · exact jmember_memStr (by decide) (jvalue_intToString _)
  · exact jmember_memStr (by decide) (jvalue_intToString _)
  · exact jmember_memStr (by decide) (jvalue_intToString _)

theorem jobject_eventEndArgsObj {ks vs : List String} (tid ts : Int)
    (hk : ∀ k ∈ ks, SafeStr k) (hv : ∀ v ∈ vs, JValue v.data) :
    JObject (eventEndArgsObj ks vs tid ts).data := by
  apply jobject_objStrSp _ (by simp [eventEndArgsObj])
  intro m hm
  simp only [eventEndArgsObj, List.mem_cons, List.not_mem_nil, or_false] at hm
  rcases hm with h | h | h | h | h <;> subst h
  · exact jmember_memStr (by decide) (jvalue_quoteJ (by decide))
  · exact jmember_memStr (by decide) (jvalue_intToString _)
  · exact jmember_memStr (by decide) (jvalue_intToString _)
  · exact jmember_memStr (by decide) (jvalue_intToString _)
  · exact jmember_memStr (by decide) (JValue.obj _ (jobject_argsObj hk hv))

theorem jobject_objectNewObj {name : String} (id : Nat) (tid ts : Int)
    (hn : SafeStr name) : JObject (objectNewObj name id tid ts).data := by
  apply jobject_objStr _ (by simp [objectNewObj])
  intro m hm
  simp only [objectNewObj, List.mem_cons, List.not_mem_nil, or_false] at hm
  rcases hm with h | h | h | h | h | h <;> subst h
  · exact jmember_memStr (by decide) (jvalue_quoteJ hn)
  · exact jmember_memStr (by decide) (jvalue_quoteJ (by decide))
  · exact jmember_memStr (by decide) (jvalue_intToString _)
  · exact jmember_memStr (by decide) (jvalue_intToString _)
  · exact jmember_memStr (by decide) (jvalue_natToString _)
  · exact jmember_memStr (by decide) (jvalue_intToString _)

theorem jobject_objectGoneObj {name : String} (id : Nat) (tid ts : Int)
    (hn : SafeStr name) : JObject (objectGoneObj name id tid ts).data := by
  apply jobject_objStr _ (by simp [objectGoneObj])
  intro m hm
  simp only [objectGoneObj, List.mem_cons, List.not_mem_nil, or_false] at hm
  rcases hm with h | h | h | h | h | h <;> subst h
  · exact jmember_memStr (by decide) (jvalue_quoteJ hn)
  · exact jmember_memStr (by decide) (jvalue_quoteJ (by decide))
  · exact jmember_memStr (by decide) (jvalue_intToString _)
  · exact jmember_memStr (by decide) (jvalue_intToString _)
  · exact jmember_memStr (by decide) (jvalue_natToString _)
  · exact jmember_memStr (by decide) (jvalue_intToString _)

theorem jobject_instantObj {name : String} (tid ts : Int)
    (hn : SafeStr name) : JObject (instantObj name tid ts).data := by
  apply jobject_objStr _ (by simp [instantObj])
  intro m hm
  simp only [instantObj, List.mem_cons, List.not_mem_nil, or_false] at hm
  rcases hm with h | h | h | h | h | h <;> subst h
  · exact jmember_memStr (by decide) (jvalue_quoteJ hn)
  · exact jmember_memStr (by decide) (jvalue_quoteJ (by decide))
  · exact jmember_memStr (by decide) (jvalue_intToString _)
  · exact jmember_memStr (by decide) (jvalue_intToString _)
  · exact jmember_memStr (by decide) (jvalue_quoteJ (by decide))
  · exact jmember_memStr (by decide) (jvalue_intToString _)

theorem jobject_counterObj {name : String} {ks vs : List String} (tid ts : Int)
    (hn : SafeStr name) (hk : ∀ k ∈ ks, SafeStr k) (hv : ∀ v ∈ vs, JValue v.data) :
    JObject (counterObj name ks vs tid ts).data := by
  apply jobject_objStrSp _ (by simp [counterObj])
  intro m hm
  simp only [counterObj, List.mem_cons, List.not_mem_nil, or_false] at hm
  rcases hm with h | h | h | h | h | h <;> subst h
  · exact jmember_memStr (by decide) (jvalue_quoteJ hn)
  · exact jmember_memStr (by decide) (jvalue_quoteJ (by decide))
  · exact jmember_memStr (by decide) (jvalue_intToString _)
  · exact jmember_memStr (by decide) (jvalue_intToString _)
  · exact jmember_memStr (by decide) (jvalue_intToString _)
  · exact jmember_memStr (by decide) (JValue.obj _ (jobject_argsObj hk hv))

theorem jobjectssep_joinRecs (objs : List String) (lastObj : String)
    (h : ∀ o ∈ objs, JObject o.data) (hl : JObject lastObj.data) :
    JObjectsSep (joinRecs objs ++ lastObj).data := by
  induction objs with
  | nil =>
    simpa [joinRecs, strConcat] using JObjectsSep.single lastObj.data hl
  | cons o os ih =>
    have step := JObjectsSep.cons o.data [] ['\n'] (joinRecs os ++ lastObj).data
      (h o (by simp)) (by simp [WSl]) (by simp [WSl, jsonWsChar])
      (ih (fun x hx => h x (by simp [hx])))
    have hd : (joinRecs (o :: os) ++ lastObj).data =
        o.data ++ [] ++ ',' :: (['\n'] ++ (joinRecs os ++ lastObj).data) := by
      simp [joinRecs, strConcat, recOf, String.data_append]
    rw [hd]
    exact step

theorem jarrayOfObjects_session (objs : List String) (lastObj : String)
    (h : ∀ o ∈ objs, JObject o.data) (hl : JObject lastObj.data) :
    JArrayOfObjects ("[\n" ++ joinRecs objs ++ lastObj ++ "\n]").data := by
  have step := JArrayOfObjects.objects ['\n'] (joinRecs objs ++ lastObj).data ['\n']
    (by simp [WSl, jsonWsChar]) (jobjectssep_joinRecs objs lastObj h hl)
    (by simp [WSl, jsonWsChar])
  have hd : ("[\n" ++ joinRecs objs ++ lastObj ++ "\n]").data =
      '[' :: ['\n'] ++ (joinRecs objs ++ lastObj).data ++ ['\n'] ++ [']'] := by
    simp [String.data_append]
  rw [hd]
  exact step

/-! Execution lemmas: flushing on an open stream, and the session invariant
of claim C1. -/

theorem streamWrite_open {st : TraceState} {p : String}
    (hs : st.stream = ⟨some p, false⟩) (s : String) :
    streamWrite st s = { st with files := fsWrite st.files p s } := by
  unfold streamWrite
  rw [hs]
  rfl

theorem foldl_streamWrite_open (l : List String) (st : TraceState) (p c : String)
    (hs : st.stream = ⟨some p, false⟩) (hf : fsFind st.files p = some c) :
    l.foldl streamWrite st = { st with files := fsSet st.files p (c ++ strConcat l) } := by
  induction l generalizing st c with
  | nil =>
    rw [List.foldl_nil]
    have h1 : c ++ strConcat [] = c := by simp [strConcat]
    rw [h1, fsSet_of_fsFind hf]
  | cons r rs ih =>
    have h2 : streamWrite st r = { st with files := fsSet st.files p (c ++ r) } := by
      rw [streamWrite_open hs r, fsWrite_of_fsFind hf r]
    have hs' : ({ st with files := fsSet st.files p (c ++ r) } : TraceState).stream =
        ⟨some p, false⟩ := hs
    have hf' : fsFind ({ st with files := fsSet st.files p (c ++ r) } : TraceState).files p =
        some (c ++ r) := fsFind_fsSet st.files p (c ++ r)
    rw [List.foldl_cons, h2, ih _ _ hs' hf', fsSet_fsSet]
    have h3 : c ++ r ++ strConcat rs = c ++ strConcat (r :: rs) := by
      simp [strConcat, String.append_assoc]
    rw [h3]

theorem traceFlush_open {st : TraceState} {p c : String}
    (hs : st.stream = ⟨some p, false⟩) (hf : fsFind st.files p = some c) :
    traceFlush st = { st with files := fsSet st.files p (c ++ strConcat st.dataVector), dataVector := [] } := by
  unfold traceFlush
  rw [foldl_streamWrite_open st.dataVector st p c hs hf]

theorem sessionInv_clockTick {p : String} {st : TraceState} (h : SessionInv p st) :
    SessionInv p (clockTick st) := by
  obtain ⟨ha, hs, w, pd, hw, hp, hf, hd⟩ := h
  exact ⟨ha, hs, w, pd, hw, hp, hf, hd⟩

theorem sessionInv_errLog {p : String} {st : TraceState} (h : SessionInv p st)
    (e : List String) : SessionInv p { st with errLog := e } := by
  obtain ⟨ha, hs, w, pd, hw, hp, hf, hd⟩ := h
  exact ⟨ha, hs, w, pd, hw, hp, hf, hd⟩

theorem sessionInv_traceFlush {p : String} {st : TraceState} (h : SessionInv p st) :
    SessionInv p (traceFlush st) := by
  obtain ⟨ha, hs, w, pd, hw, hp, hf, hd⟩ := h
  rw [traceFlush_open hs hf]
  refine ⟨ha, hs, w ++ pd, [], ?_, by simp, ?_, by simp⟩
  · intro o ho
    rcases List.mem_append.mp ho with h1 | h1
    · exact hw o h1
    · exact hp o h1
  · show fsFind (fsSet st.files p _) p = _
    rw [fsFind_fsSet, hd]
    have : strConcat (pd.map recOf) = joinRecs pd := rfl
    rw [this, joinRecs_append, String.append_assoc]

theorem sessionInv_capFlush {p : String} {st : TraceState} (h : SessionInv p st) :
    SessionInv p (capFlush st) := by
  unfold capFlush
  split
  · exact sessionInv_traceFlush h
  · exact h

theorem sessionInv_pushRec {p : String} {st : TraceState} (h : SessionInv p st)
    {obj : String} (ho : JObject obj.data) :
    SessionInv p (pushRec (clockTick st) (recOf obj)) := by
  obtain ⟨ha, hs, w, pd, hw, hp, hf, hd⟩ := h
  refine ⟨ha, hs, w, pd ++ [obj], hw, ?_, hf, ?_⟩
  · intro o ho'
    rcases List.mem_append.mp ho' with h1 | h1
    · exact hp o h1
    · rw [List.mem_singleton.mp h1]
      exact ho
  · show st.dataVector ++ [recOf obj] = _
    rw [hd, List.map_append]
    rfl

theorem sessionInv_step {p : String} {st : TraceState} (op : Op)
    (hop : isSessionOp op = true) (hsafe : SafeOp op) (h : SessionInv p st) :
    ∃ st', traceOp op st = some st' ∧ SessionInv p st' := by
  cases op with
  | start q ok => simp [isSessionOp] at hop
  | fin => simp [isSessionOp] at hop
  | flush => exact ⟨_, rfl, sessionInv_traceFlush h⟩
  | eventStart n c t =>
    refine ⟨_, rfl, ?_⟩
    unfold traceEventStart
    rw [if_neg (by simp [h.1])]
    exact sessionInv_pushRec (sessionInv_capFlush h)
      (jobject_eventStartObj _ _ hsafe.1 hsafe.2)
  | eventStartArgs n c ks vs t =>
    refine ⟨_, rfl, ?_⟩
    obtain ⟨h1, h2, h3, h4⟩ := hsafe
    unfold traceEventStartArgs
    rw [if_neg (by simp [h.1])]
    by_cases hlen : ks.length = vs.length
    · rw [if_pos hlen]
      exact sessionInv_pushRec (sessionInv_capFlush h)
        (jobject_eventStartArgsObj _ _ h1 h2 h3 h4)
    · rw [if_neg hlen]
      have h5 := sessionInv_errLog (sessionInv_capFlush h)
        ((capFlush st).errLog ++ [mismatchStartMsg n])
      unfold traceEventStart
      rw [if_neg (by simp [h.1])]
      exact sessionInv_pushRec (sessionInv_capFlush h5) (jobject_eventStartObj _ _ h1 h2)
  | eventEnd t =>
    refine ⟨_, rfl, ?_⟩
    unfold traceEventEnd
    rw [if_neg (by simp [h.1])]
    exact sessionInv_pushRec (sessionInv_capFlush h) (jobject_eventEndObj _ _)
  | eventEndArgs ks vs t =>
    refine ⟨_, rfl, ?_⟩
    obtain ⟨h3, h4⟩ := hsafe
    unfold traceEventEndArgs
    rw [if_neg (by simp [h.1])]
    by_cases hlen : ks.length = vs.length
    · rw [if_pos hlen]
      exact sessionInv_pushRec (sessionInv_capFlush h)
        (jobject_eventEndArgsObj _ _ h3 h4)
    · rw [if_neg hlen]
      have h5 := sessionInv_errLog (sessionInv_capFlush h)
        ((capFlush st).errLog ++ [mismatchEndMsg])
      unfold traceEventEnd
      rw [if_neg (by simp [h.1])]
      exact sessionInv_pushRec (sessionInv_capFlush h5) (jobject_eventEndObj _ _)
  | objectNew n ptr t =>
    refine ⟨_, rfl, ?_⟩
    unfold traceObjectNew
    rw [if_neg (by simp [h.1])]
    exact sessionInv_pushRec (sessionInv_capFlush h) (jobject_objectNewObj _ _ _ hsafe)
  | objectGone n ptr t =>
    refine ⟨_, rfl, ?_⟩
    unfold traceObjectGone
    rw [if_neg (by simp [h.1])]
    exact sessionInv_pushRec (sessionInv_capFlush h) (jobject_objectGoneObj _ _ _ hsafe)
  | instantGlobal n t =>
    refine ⟨_, rfl, ?_⟩
    unfold traceInstantGlobal
    rw [if_neg (by simp [h.1])]
    exact sessionInv_pushRec (sessionInv_capFlush h) (jobject_instantObj _ _ hsafe)
  | counter n ks vs t =>
    refine ⟨_, rfl, ?_⟩
    obtain ⟨h1, h3, h4⟩ := hsafe
    unfold traceCounter
    rw [if_neg (by simp [h.1])]
    by_cases hlen : ks.length = vs.length
    · rw [if_pos hlen]
      exact sessionInv_pushRec (sessionInv_capFlush h)
        (jobject_counterObj _ _ h1 h3 h4)
    · rw [if_neg hlen]
      exact sessionInv_errLog (sessionInv_capFlush h) _

theorem execOps_append (a b : List Op) (st : TraceState) :
    execOps (a ++ b) st = (execOps a st).bind (execOps b) := by
  induction a generalizing st with
  | nil => rfl
  | cons op ops ih =>
    cases htop : traceOp op st <;> simp [execOps, htop, ih]

theorem sessionInv_execOps {p : String} (es : List Op) : ∀ st : TraceState,
    (∀ op ∈ es, isSessionOp op = true ∧ SafeOp op) → SessionInv p st →
    ∃ st', execOps es st = some st' ∧ SessionInv p st' := by
  induction es with
  | nil => exact fun st _ h => ⟨st, rfl, h⟩
  | cons op ops ih =>
    intro st hops h
    obtain ⟨st1, h1, hInv1⟩ := sessionInv_step op (hops op (by simp)).1 (hops op (by simp)).2 h
    obtain ⟨st2, h2, hInv2⟩ := ih st1 (fun x hx => hops x (by simp [hx])) hInv1
    exact ⟨st2, by simp [execOps, h1, h2], hInv2⟩

theorem traceStart_init (p : String) (clock : List Nat) :
    (traceStart p true (initState clock)).2 = { traceActive := true, dataVector := [], cap := TRACE_MAX, stream := ⟨some p, false⟩, files := [(p, "[\n")], clockInit := true, startTime := clock.headD 0, clock := clock.tail, errLog := [] } := by
  unfold traceStart ofstreamOpen initState streamWrite clockTick clockPeek
  simp [fsSet, fsWrite, TRACE_MAX]

theorem sessionInv_init (p : String) (clock : List Nat) :
    SessionInv p (traceStart p true (initState clock)).2 := by
  rw [traceStart_init]
  refine ⟨rfl, rfl, [], [], by simp, by simp, ?_, by simp⟩
  show fsFind [(p, "[\n")] p = _
  simp [fsFind, joinRecs, strConcat]

theorem traceEnd_of_inv {p : String} {st : TraceState} (h : SessionInv p st)
    (hne : st.dataVector ≠ []) :
    ∃ stf objs lastObj, traceEnd st = some stf ∧
      (∀ o ∈ objs, JObject o.data) ∧ JObject lastObj.data ∧
      fsGet stf.files p = "[\n" ++ joinRecs objs ++ lastObj ++ "\n]" := by
  obtain ⟨ha, hs, w, pd, hw, hp, hf, hd⟩ := h
  have hpd : pd ≠ [] := by
    rintro rfl
    rw [hd] at hne
    simp at hne
  obtain ⟨pd0, lastObj, rfl⟩ : ∃ pd0 lastObj, pd = pd0 ++ [lastObj] := by
    rcases List.eq_nil_or_concat pd with h1 | ⟨l, a, h1⟩
    · exact absurd h1 hpd
    · exact ⟨l, a, by simpa using h1⟩
  have hlast : st.dataVector.getLast? = some (recOf lastObj) := by
    rw [hd, List.map_append]
    simp
  have hdl : st.dataVector.dropLast = pd0.map recOf := by
    rw [hd, List.map_append]
    simp
  have hlen2 : ¬ (recOf lastObj).length < 2 := by
    rw [length_recOf]
    omega
  simp only [traceEnd, hlast]
  rw [if_neg hlen2]
  have hst1 : { st with dataVector := st.dataVector.dropLast ++ [strPopBack (strPopBack (recOf lastObj))] } = { st with dataVector := pd0.map recOf ++ [lastObj] } := by
    rw [hdl, strPopBack_strPopBack_recOf]
  rw [hst1]
  have hs1 : ({ st with dataVector := pd0.map recOf ++ [lastObj] } : TraceState).stream = ⟨some p, false⟩ := hs
  have hf1 : fsFind ({ st with dataVector := pd0.map recOf ++ [lastObj] } : TraceState).files p = some ("[\n" ++ joinRecs w) := hf
  rw [traceFlush_open hs1 hf1]
  dsimp only
  have hs2 : ({ st with dataVector := ([] : List String), files := fsSet st.files p ("[\n" ++ joinRecs w ++ strConcat (pd0.map recOf ++ [lastObj])) } : TraceState).stream = ⟨some p, false⟩ := hs
  rw [streamWrite_open hs2]
  dsimp only
  rw [fsWrite_of_fsFind (fsFind_fsSet _ _ _), fsSet_fsSet]
  refine ⟨_, w ++ pd0, lastObj, rfl, ?_, hp lastObj (by simp), ?_⟩
  · intro o ho
    rcases List.mem_append.mp ho with h1 | h1
    · exact hw o h1
    · exact hp o (by simp [h1])
  · show fsGet (fsSet st.files p _) p = _
    rw [fsGet_of_fsFind (fsFind_fsSet _ _ _)]
    rw [strConcat_append]
    have h6 : strConcat (pd0.map recOf) = joinRecs pd0 := rfl
    have h7 : strConcat [lastObj] = lastObj ++ "" := rfl
    rw [h6, h7, joinRecs_append]
    simp [String.append_assoc]

/-! Claim C1. -/

/-- C1, amended: for every sequence of emit calls between a successful
`start` and its matching `end`, with explicit `flush` calls interleaved
anywhere, the bytes written to the sink over the whole session parse as a
syntactically valid JSON array of objects — provided the record buffer is
non-empty when `end` is called (otherwise `end`'s separator strip is
undefined behaviour, see the counterexample), and the caller-supplied
strings are JSON-safe (names and keys contain no quote, backslash or control
character; argument values are valid JSON literals). -/
theorem c1_session_output_is_valid_json_array
    (es : List Op) (p : String) (clock : List Nat) (st' : TraceState)
    (hops : ∀ op ∈ es, isSessionOp op = true ∧ SafeOp op)
    (hrun : execOps (Op.start p true :: es) (initState clock) = some st')
    (hne : st'.dataVector ≠ []) :
    ∃ stf, execOps (Op.start p true :: es ++ [Op.fin]) (initState clock) = some stf ∧
      JArrayOfObjects (fsGet stf.files p).data := by
  have h0 : execOps (Op.start p true :: es) (initState clock) =
      execOps es (traceStart p true (initState clock)).2 := rfl
  obtain ⟨st1, h1, hInv1⟩ := sessionInv_execOps es _ hops (sessionInv_init p clock)
  have hst1 : st1 = st' := by
    rw [h0, h1] at hrun
    exact Option.some_injective _ hrun
  subst hst1
  obtain ⟨stf, objs, lastObj, he, hobjs, hlast, hget⟩ := traceEnd_of_inv hInv1 hne
  refine ⟨stf, ?_, ?_⟩
  · show execOps (es ++ [Op.fin]) (traceStart p true (initState clock)).2 = some stf
    rw [execOps_append, h1]
    simp [execOps, traceOp, he]
  · rw [hget]
    exact jarrayOfObjects_session objs lastObj hobjs hlast

/-- C1, counterexample to the claim as stated: a session consisting of one
emit, one explicit `flush` and then `end` leaves the buffer empty at `end`
time, so `trace_end` runs `dataVector.back()` on an empty vector — undefined
behaviour (`none`): no bytes forming a valid JSON array are ever produced
(and the record already flushed still carries its trailing `",\n"`). -/
theorem c1_counterexample_flush_then_end :
    execOps [Op.start "t" true, Op.instantGlobal "e0" 1, Op.flush, Op.fin]
      (initState [0, 0]) = none := by
  rfl

/-- Witness for the amended C1 at a concrete session. -/
theorem c1_witness :
    ∃ stf, execOps (Op.start "t" true :: [Op.instantGlobal "e0" 1] ++ [Op.fin])
      (initState [0, 0]) = some stf ∧ JArrayOfObjects (fsGet stf.files "t").data := by
  refine c1_session_output_is_valid_json_array _ _ _
    ((execOps (Op.start "t" true :: [Op.instantGlobal "e0" 1])
      (initState [0, 0])).getD (initState [])) ?_ (by rfl) ?_
  · intro op hop
    rw [List.mem_singleton.mp hop]
    exact ⟨rfl, (by decide : SafeStr "e0")⟩
  · decide

/-! Claim C2. -/

/-- C2: the code violates the claim.  `start` immediately followed by `end`
(zero events, empty buffer) makes `trace_end` run `dataVector.back()` and
`pop_back()` on an empty vector — undefined behaviour, modelled `none`: no
separator is stripped from the sink, no closing bracket is written, and the
sink is not closed. -/
theorem c2_zero_event_end_underflows :
    execOps [Op.start "t" true, Op.fin] (initState [5]) = none := by
  rfl

/-! Claim C9. -/

/-- C9: `trace_flush` on an empty buffer writes nothing to the sink, raises
no error and leaves the whole state (sink contents included) unchanged; and
flushing twice in a row equals flushing once (the second flush always sees
an empty buffer). -/
theorem c9_empty_flush_idempotent (st : TraceState) :
    (st.dataVector = [] → traceFlush st = st) ∧
    traceFlush (traceFlush st) = traceFlush st := by
  refine ⟨fun h => traceFlush_of_empty h, ?_⟩
  exact traceFlush_of_empty (traceFlush_dataVector st)

/-- Witness for C9 at a concrete state. -/
theorem c9_witness :
    (initState [1, 2]).dataVector = [] ∧
    traceFlush (initState [1, 2]) = initState [1, 2] ∧
    traceFlush (traceFlush (initState [1, 2])) = traceFlush (initState [1, 2]) :=
  ⟨rfl, (c9_empty_flush_idempotent (initState [1, 2])).1 rfl,
    (c9_empty_flush_idempotent (initState [1, 2])).2⟩

/-! Claim C10. -/

theorem streamWrite_closed {st : TraceState} (h : st.stream.openPath = none)
    (s : String) : streamWrite st s = st := by
  unfold streamWrite
  rw [h]

theorem foldl_streamWrite_closed (l : List String) (st : TraceState)
    (h : st.stream.openPath = none) : l.foldl streamWrite st = st := by
  induction l with
  | nil => rfl
  | cons r rs ih => rw [List.foldl_cons, streamWrite_closed h r, ih]

/-- C10: `trace_flush` performs no active-session check: called while the
session is inactive and the sink closed, it iterates the buffer against the
closed sink (every write is a no-op, so no file changes) and then clears the
buffer, discarding any buffered records without their ever reaching an open
sink. -/
theorem c10_inactive_flush_discards_buffer (st : TraceState)
    (hact : st.traceActive = false) (hcl : st.stream.openPath = none) :
    (traceFlush st).files = st.files ∧ (traceFlush st).dataVector = [] := by
  constructor
  · show ({ st.dataVector.foldl streamWrite st with dataVector := [] } : TraceState).files = _
    rw [foldl_streamWrite_closed st.dataVector st hcl]
  · exact traceFlush_dataVector st

/-- Witness for C10 at a concrete inactive state holding one buffered
record: the record is discarded and no file is touched. -/
theorem c10_witness :
    ({ initState [] with dataVector := ["rec"] } : TraceState).traceActive = false ∧
    ({ initState [] with dataVector := ["rec"] } : TraceState).stream.openPath = none ∧
    (traceFlush { initState [] with dataVector := ["rec"] }).files =
      ({ initState [] with dataVector := ["rec"] } : TraceState).files ∧
    (traceFlush { initState [] with dataVector := ["rec"] }).dataVector = [] :=
  ⟨rfl, rfl, (c10_inactive_flush_discards_buffer _ rfl rfl).1,
    (c10_inactive_flush_discards_buffer _ rfl rfl).2⟩

/-! Claim C5. -/

/-- C5, counterexample to the claim as stated: after `start "a"`, one emit
and a second `start "b"` while active, the stream is still open at `"a"`
with the failbit set (the C++ `open` on an open stream fails), the record
buffered before the second start is still in the buffer (the buffer is not
reset — `reserve` does not clear), and no file `"b"` exists at all. -/
theorem c5_counterexample :
    (execOps [Op.start "a" true, Op.instantGlobal "e" 1, Op.start "b" true]
      (initState [0, 0])).map
        (fun s => (s.stream, s.dataVector.length, fsFind s.files "b")) =
      some (⟨some "a", true⟩, 1, none) := by
  rfl

/-- C5, amended: calling `start` again while the session is active neither
re-opens the sink at the new path nor resets the buffer: the `open` fails
leaving the original file open with the failbit set (so the opening bracket
write and every later write up to `end` are suppressed), previously buffered
records stay in the buffer, no error is reported, and `start` still returns
`true`. -/
theorem c5_second_start_no_reopen_no_reset (q : String) (ok : Bool)
    (st : TraceState) (p : String) (hopen : st.stream.openPath = some p)
    (hck : st.clockInit = true) :
    traceStart q ok st = (true, { st with stream := ⟨some p, true⟩, cap := max st.cap TRACE_MAX, traceActive := true }) := by
  unfold traceStart ofstreamOpen
  rw [hopen]
  have hw : streamWrite { st with stream := (⟨some p, true⟩ : OStream), cap := max st.cap TRACE_MAX } "[\n" = { st with stream := (⟨some p, true⟩ : OStream), cap := max st.cap TRACE_MAX } := by
    unfold streamWrite
    rfl
  simp only [Option.isSome_some, if_true]
  rw [hw]
  simp [hck]

/-- Witness for the amended C5 at a concrete active state. -/
theorem c5_witness :
    ({ initState [] with stream := ⟨some "a", false⟩, clockInit := true, dataVector := ["r"] } : TraceState).stream.openPath = some "a" ∧
    traceStart "b" true { initState [] with stream := ⟨some "a", false⟩, clockInit := true, dataVector := ["r"] } = (true, { initState [] with stream := ⟨some "a", true⟩, clockInit := true, dataVector := ["r"], cap := TRACE_MAX, traceActive := true }) := by
  constructor
  · rfl
  · rw [c5_second_start_no_reopen_no_reset "b" true _ "a" rfl rfl]
    rfl

/-! Claim C6. -/

/-- C6, counterexample to the claim as stated: a clock reading exactly
`2^31` microseconds (`2147483648000` ns) after the origin satisfies the
claim's hypotheses (not earlier than the origin, trivially non-decreasing),
yet the rendered `ts` is negative: the `int(...)` cast wraps the 32-bit
value. -/
theorem c6_counterexample :
    0 ≤ 2147483648000 ∧ tsRender 0 2147483648000 = -2147483648 := by
  constructor
  · decide
  · show toInt32 ((2147483648000 - 0) / 1000) = -2147483648
    decide

theorem toInt32_of_lt {q : Nat} (h : q < 2 ^ 31) : toInt32 q = (q : Int) := by
  unfold toInt32
  rw [Nat.mod_eq_of_lt (by omega)]
  rw [if_pos h]

theorem tsRender_of_bounded {origin t : Nat} (h : (t - origin) / 1000 < 2 ^ 31) :
    tsRender origin t = (((t - origin) / 1000 : Nat) : Int) := by
  unfold tsRender
  exact toInt32_of_lt h

theorem tsRender_chain (origin : Nat) : ∀ nows : List Nat,
    List.Chain' (· ≤ ·) nows → (∀ t ∈ nows, (t - origin) / 1000 < 2 ^ 31) →
    List.Chain' (· ≤ ·) (nows.map (tsRender origin)) := by
  intro nows
  induction nows with
  | nil => simp
  | cons a rest ih =>
    intro hch hb
    cases rest with
    | nil => simp
    | cons b rest' =>
      obtain ⟨hab, hch'⟩ := List.chain'_cons.mp hch
      rw [List.map_cons, List.map_cons, List.chain'_cons]
      constructor
      · rw [tsRender_of_bounded (hb a (by simp)), tsRender_of_bounded (hb b (by simp))]
        exact_mod_cast Nat.div_le_div_right (Nat.sub_le_sub_right hab origin)
      · rw [← List.map_cons]
        exact ih hch' (fun t ht => hb t (by simp [ht]))

/-- C6, amended: for clock readings that are non-decreasing, not earlier
than the clock origin, and less than `2^31` microseconds after it (so the
`int` cast does not wrap), the rendered `ts` values are non-decreasing and
all non-negative. -/
theorem c6_ts_monotone_nonneg (origin : Nat) (nows : List Nat)
    (hmono : List.Chain' (· ≤ ·) nows) (hge : ∀ t ∈ nows, origin ≤ t)
    (hbound : ∀ t ∈ nows, (t - origin) / 1000 < 2 ^ 31) :
    List.Chain' (· ≤ ·) (nows.map (tsRender origin)) ∧
      ∀ x ∈ nows.map (tsRender origin), 0 ≤ x := by
  constructor
  · exact tsRender_chain origin nows hmono hbound
  · intro x hx
    obtain ⟨t, ht, rfl⟩ := List.mem_map.mp hx
    rw [tsRender_of_bounded (hbound t ht)]
    exact Int.natCast_nonneg _

/-- Witness for the amended C6 at concrete readings. -/
theorem c6_witness :
    List.Chain' (· ≤ ·) [1000, 2000] ∧ (∀ t ∈ [1000, 2000], 0 ≤ t) ∧
    (∀ t ∈ [1000, 2000], (t - 0) / 1000 < 2 ^ 31) ∧
    List.Chain' (· ≤ ·) ([1000, 2000].map (tsRender 0)) ∧
    ∀ x ∈ [1000, 2000].map (tsRender 0), 0 ≤ x :=
  ⟨by simp [List.chain'_cons], by decide, by decide,
    (c6_ts_monotone_nonneg 0 [1000, 2000] (by simp [List.chain'_cons]) (by decide) (by decide)).1,
    (c6_ts_monotone_nonneg 0 [1000, 2000] (by simp [List.chain'_cons]) (by decide) (by decide)).2⟩

/-! Claims C4 and C8. -/

theorem capFlush_of_empty {st : TraceState} (h : st.dataVector = []) :
    capFlush st = st := by
  unfold capFlush
  split
  · exact traceFlush_of_empty h
  · rfl

theorem capFlush_idem_errLog (st : TraceState) (e : List String) :
    capFlush { capFlush st with errLog := e } = { capFlush st with errLog := e } := by
  by_cases h1 : st.dataVector.length = st.cap
  · have hdv : ({ capFlush st with errLog := e } : TraceState).dataVector = [] := by
      show (capFlush st).dataVector = []
      unfold capFlush
      rw [if_pos h1]
      exact traceFlush_dataVector st
    exact capFlush_of_empty hdv
  · have h2 : ({ capFlush st with errLog := e } : TraceState).dataVector.length ≠
        ({ capFlush st with errLog := e } : TraceState).cap := by
      show (capFlush st).dataVector.length ≠ (capFlush st).cap
      rw [capFlush_of_ne h1]
      exact h1
    exact capFlush_of_ne h2

theorem traceEventStartArgs_mismatch {st : TraceState} (name cat : String)
    {ks vs : List String} (tid : Nat) (hact : st.traceActive = true)
    (hlen : ks.length ≠ vs.length) :
    traceEventStartArgs name cat ks vs tid st =
      pushRec (clockTick { capFlush st with errLog := (capFlush st).errLog ++ [mismatchStartMsg name] })
        (recOf (eventStartObj name cat (toInt32 TID_VALUE)
          (tsRender st.startTime (clockPeek st)))) := by
  unfold traceEventStartArgs
  rw [if_neg (by simp [hact]), if_neg hlen]
  unfold traceEventStart
  rw [if_neg (by simp [hact])]
  rw [capFlush_idem_errLog]
  simp [clockPeek]

theorem traceEventEndArgs_mismatch {st : TraceState} {ks vs : List String}
    (tid : Nat) (hact : st.traceActive = true) (hlen : ks.length ≠ vs.length) :
    traceEventEndArgs ks vs tid st =
      pushRec (clockTick { capFlush st with errLog := (capFlush st).errLog ++ [mismatchEndMsg] })
        (recOf (eventEndObj (toInt32 TID_VALUE)
          (tsRender st.startTime (clockPeek st)))) := by
  unfold traceEventEndArgs
  rw [if_neg (by simp [hact]), if_neg hlen]
  unfold traceEventEnd
  rw [if_neg (by simp [hact])]
  rw [capFlush_idem_errLog]
  simp [clockPeek]

theorem traceCounter_mismatch {st : TraceState} (name : String)
    {ks vs : List String} (tid : Nat) (hact : st.traceActive = true)
    (hlen : ks.length ≠ vs.length) :
    traceCounter name ks vs tid st =
      { capFlush st with errLog := (capFlush st).errLog ++ [mismatchCounterMsg name] } := by
  unfold traceCounter
  rw [if_neg (by simp [hact]), if_neg hlen]

/-- C4, counterexample to the claim as stated: a counter event with
mismatched key/value lists on an active session reports the error but
appends nothing to the buffer — the event is dropped, not re-emitted in a
no-argument form. -/
theorem c4_counterexample :
    (execOps [Op.start "t" true, Op.counter "c" ["a", "b"] ["1"] 1]
      (initState [0])).map (fun s => (s.dataVector, s.errLog)) =
      some ([], [mismatchCounterMsg "c"]) := by
  rfl

/-- C4, amended: on an active session with argument lists of different
lengths, the with-arguments duration-begin and duration-end emits report an
error and still append the event in its no-argument form (rendered with the
default tid `TID_VALUE` and a fresh clock reading), while the counter emit
reports an error and appends nothing — the counter event is dropped.  No
call crashes. -/
theorem c4_mismatch_degrades_begin_end_drops_counter (st : TraceState)
    (name cat : String) (ks vs : List String) (tid : Nat)
    (hact : st.traceActive = true) (hlen : ks.length ≠ vs.length) :
    (traceEventStartArgs name cat ks vs tid st).dataVector =
      (capFlush st).dataVector ++
        [recOf (eventStartObj name cat (toInt32 TID_VALUE)
          (tsRender st.startTime (clockPeek st)))] ∧
    (traceEventStartArgs name cat ks vs tid st).errLog =
      st.errLog ++ [mismatchStartMsg name] ∧
    (traceEventEndArgs ks vs tid st).dataVector =
      (capFlush st).dataVector ++
        [recOf (eventEndObj (toInt32 TID_VALUE)
          (tsRender st.startTime (clockPeek st)))] ∧
    (traceEventEndArgs ks vs tid st).errLog = st.errLog ++ [mismatchEndMsg] ∧
    (traceCounter name ks vs tid st).dataVector = (capFlush st).dataVector ∧
    (traceCounter name ks vs tid st).errLog = st.errLog ++ [mismatchCounterMsg name] := by
  refine ⟨?_, ?_, ?_, ?_, ?_, ?_⟩
  · rw [traceEventStartArgs_mismatch name cat tid hact hlen]
    simp [pushRec, clockTick]
  · rw [traceEventStartArgs_mismatch name cat tid hact hlen]
    simp [pushRec, clockTick]
  · rw [traceEventEndArgs_mismatch tid hact hlen]
    simp [pushRec, clockTick]
  · rw [traceEventEndArgs_mismatch tid hact hlen]
    simp [pushRec, clockTick]
  · rw [traceCounter_mismatch name tid hact hlen]
  · rw [traceCounter_mismatch name tid hact hlen]
    simp

/-- Witness for the amended C4 at a concrete active state. -/
theorem c4_witness :
    ({ initState [] with traceActive := true } : TraceState).traceActive = true ∧
    (["a", "b"] : List String).length ≠ (["1"] : List String).length ∧
    ((traceEventStartArgs "f" "c" ["a", "b"] ["1"] 7 { initState [] with traceActive := true }).dataVector =
      (capFlush { initState [] with traceActive := true }).dataVector ++
        [recOf (eventStartObj "f" "c" (toInt32 TID_VALUE)
          (tsRender ({ initState [] with traceActive := true } : TraceState).startTime
            (clockPeek { initState [] with traceActive := true })))] ∧
     (traceEventStartArgs "f" "c" ["a", "b"] ["1"] 7 { initState [] with traceActive := true }).errLog =
      ({ initState [] with traceActive := true } : TraceState).errLog ++ [mismatchStartMsg "f"] ∧
     (traceEventEndArgs ["a", "b"] ["1"] 7 { initState [] with traceActive := true }).dataVector =
      (capFlush { initState [] with traceActive := true }).dataVector ++
        [recOf (eventEndObj (toInt32 TID_VALUE)
          (tsRender ({ initState [] with traceActive := true } : TraceState).startTime
            (clockPeek { initState [] with traceActive := true })))] ∧
     (traceEventEndArgs ["a", "b"] ["1"] 7 { initState [] with traceActive := true }).errLog =
      ({ initState [] with traceActive := true } : TraceState).errLog ++ [mismatchEndMsg] ∧
     (traceCounter "f" ["a", "b"] ["1"] 7 { initState [] with traceActive := true }).dataVector =
      (capFlush { initState [] with traceActive := true }).dataVector ∧
     (traceCounter "f" ["a", "b"] ["1"] 7 { initState [] with traceActive := true }).errLog =
      ({ initState [] with traceActive := true } : TraceState).errLog ++ [mismatchCounterMsg "f"]) :=
  ⟨rfl, by decide,
    c4_mismatch_degrades_begin_end_drops_counter _ "f" "c" ["a", "b"] ["1"] 7 rfl (by decide)⟩

/-- C8: calling the with-arguments duration-begin variant on an active
session with 2 argument names and 1 argument value reports an error and
appends one duration-begin event rendered in the no-argument form (so it has
no `args` field); the call returns normally and the event is not dropped. -/
theorem c8_two_names_one_value_degrades (st : TraceState)
    (name cat n1 n2 v1 : String) (tid : Nat) (hact : st.traceActive = true) :
    (traceEventStartArgs name cat [n1, n2] [v1] tid st).dataVector =
      (capFlush st).dataVector ++
        [recOf (eventStartObj name cat (toInt32 TID_VALUE)
          (tsRender st.startTime (clockPeek st)))] ∧
    (traceEventStartArgs name cat [n1, n2] [v1] tid st).errLog =
      st.errLog ++ [mismatchStartMsg name] := by
  constructor
  · rw [traceEventStartArgs_mismatch name cat tid hact (by simp)]
    simp [pushRec, clockTick]
  · rw [traceEventStartArgs_mismatch name cat tid hact (by simp)]
    simp [pushRec, clockTick]

/-! Claim C7. -/

theorem ofstreamOpen_shape (filename : String) (ok : Bool) (st : TraceState) :
    ofstreamOpen filename ok st = { st with stream := (ofstreamOpen filename ok st).stream, files := (ofstreamOpen filename ok st).files } := by
  unfold ofstreamOpen
  rcases h : st.stream.openPath with _ | q
  · simp only [h]
    by_cases hok : ok = true <;> simp [hok]
  · simp only [h]

@[simp] theorem ofstreamOpen_clockInit (filename : String) (ok : Bool) (st : TraceState) :
    (ofstreamOpen filename ok st).clockInit = st.clockInit := by
  rw [ofstreamOpen_shape filename ok st]

@[simp] theorem ofstreamOpen_startTime (filename : String) (ok : Bool) (st : TraceState) :
    (ofstreamOpen filename ok st).startTime = st.startTime := by
  rw [ofstreamOpen_shape filename ok st]

@[simp] theorem ofstreamOpen_dataVector (filename : String) (ok : Bool) (st : TraceState) :
    (ofstreamOpen filename ok st).dataVector = st.dataVector := by
  rw [ofstreamOpen_shape filename ok st]

@[simp] theorem ofstreamOpen_clock (filename : String) (ok : Bool) (st : TraceState) :
    (ofstreamOpen filename ok st).clock = st.clock := by
  rw [ofstreamOpen_shape filename ok st]

theorem traceOp_clock_const {op : Op} {st st' : TraceState}
    (hini : st.clockInit = true) (hstep : traceOp op st = some st') :
    st'.clockInit = true ∧ st'.startTime = st.startTime := by
  cases op with
  | start q ok =>
    obtain rfl : (traceStart q ok st).2 = st' := Option.some_injective _ hstep
    unfold traceStart
    by_cases h1 : (ofstreamOpen q ok st).stream.openPath.isSome = true <;>
      constructor <;> simp [h1, hini]
  | flush =>
    obtain rfl : traceFlush st = st' := Option.some_injective _ hstep
    constructor <;> simp [hini]
  | fin =>
    rcases hl : st.dataVector.getLast? with _ | r
    · simp only [traceOp, traceEnd, hl] at hstep
      exact absurd hstep (by simp)
    · simp only [traceOp, traceEnd, hl] at hstep
      by_cases h2 : r.length < 2
      · rw [if_pos h2] at hstep
        exact absurd hstep (by simp)
      · rw [if_neg h2] at hstep
        obtain rfl := Option.some_injective _ hstep
        constructor <;> simp [hini]
  | eventStart n c t =>
    obtain rfl : traceEventStart n c t st = st' := Option.some_injective _ hstep
    unfold traceEventStart
    split
    · exact ⟨hini, rfl⟩
    · constructor <;> simp [pushRec, clockTick, hini]
  | eventStartArgs n c ks vs t =>
    obtain rfl : traceEventStartArgs n c ks vs t st = st' := Option.some_injective _ hstep
    unfold traceEventStartArgs traceEventStart
    (repeat' split) <;> constructor <;> simp_all [pushRec, clockTick]
  | eventEnd t =>
    obtain rfl : traceEventEnd t st = st' := Option.some_injective _ hstep
    unfold traceEventEnd
    split
    · exact ⟨hini, rfl⟩
    · constructor <;> simp [pushRec, clockTick, hini]
  | eventEndArgs ks vs t =>
    obtain rfl : traceEventEndArgs ks vs t st = st' := Option.some_injective _ hstep
    unfold traceEventEndArgs traceEventEnd
    (repeat' split) <;> constructor <;> simp_all [pushRec, clockTick]
  | objectNew n ptr t =>
    obtain rfl : traceObjectNew n ptr t st = st' := Option.some_injective _ hstep
    unfold traceObjectNew
    split
    · exact ⟨hini, rfl⟩
    · constructor <;> simp [pushRec, clockTick, hini]
  | objectGone n ptr t =>
    obtain rfl : traceObjectGone n ptr t st = st' := Option.some_injective _ hstep
    unfold traceObjectGone
    split
    · exact ⟨hini, rfl⟩
    · constructor <;> simp [pushRec, clockTick, hini]
  | instantGlobal n t =>
    obtain rfl : traceInstantGlobal n t st = st' := Option.some_injective _ hstep
    unfold traceInstantGlobal
    split
    · exact ⟨hini, rfl⟩
    · constructor <;> simp [pushRec, clockTick, hini]
  | counter n ks vs t =>
    obtain rfl : traceCounter n ks vs t st = st' := Option.some_injective _ hstep
    unfold traceCounter
    (repeat' split) <;> constructor <;> simp_all [pushRec, clockTick]

theorem execOps_clock_const (ops : List Op) : ∀ st st' : TraceState,
    st.clockInit = true → execOps ops st = some st' →
    st'.clockInit = true ∧ st'.startTime = st.startTime := by
  induction ops with
  | nil =>
    intro st st' h hrun
    obtain rfl := Option.some_injective _ hrun
    exact ⟨h, rfl⟩
  | cons op rest ih =>
    intro st st' h hrun
    rcases h1 : traceOp op st with _ | st1
    · rw [execOps, h1] at hrun
      exact absurd hrun (by simp)
    · rw [execOps, h1] at hrun
      obtain ⟨h2, h3⟩ := traceOp_clock_const h h1
      obtain ⟨h4, h5⟩ := ih st1 st' h2 hrun
      exact ⟨h4, h5.trans h3⟩

/-- C7: `clock_origin` (`startTime`) is captured at most once per process —
by the first successful `start` only.  Part 1: once `clockInit` is set, no
sequence of operations (later `start`/`end` cycles included) changes
`startTime` or clears `clockInit`.  Part 2: the first successful `start`
captures the current clock reading.  Part 3: a failed `start` (open refused,
no file yet open) captures nothing. -/
theorem c7_clock_origin_captured_once :
    (∀ (ops : List Op) (st st' : TraceState), st.clockInit = true →
      execOps ops st = some st' →
      st'.clockInit = true ∧ st'.startTime = st.startTime) ∧
    (∀ (p : String) (now : Nat) (rest : List Nat) (st : TraceState),
      st.clockInit = false → st.stream.openPath = none →
      (traceStart p true { st with clock := now :: rest }).2.startTime = now ∧
        (traceStart p true { st with clock := now :: rest }).2.clockInit = true) ∧
    (∀ (p : String) (st : TraceState), st.stream.openPath = none →
      (traceStart p false st).2.clockInit = st.clockInit ∧
        (traceStart p false st).2.startTime = st.startTime) := by
  refine ⟨fun ops st st' h hrun => execOps_clock_const ops st st' h hrun, ?_, ?_⟩
  · intro p now rest st hci hop
    unfold traceStart ofstreamOpen
    have hmatch : ({ st with clock := now :: rest } : TraceState).stream.openPath = none := hop
    rw [hmatch]
    simp [streamWrite, hci, clockPeek, clockTick]
  · intro p st hop
    unfold traceStart ofstreamOpen
    rw [hop]
    simp

/-- Witness for C7 at a concrete state and operation sequence (a full later
session: `start`, one emit, `end`). -/
theorem c7_witness :
    ({ initState [9] with clockInit := true, startTime := 42 } : TraceState).clockInit = true ∧
    ({ initState [9] with clockInit := true, startTime := 42 } : TraceState).clock = 9 :: [] ∧
    ({ initState [9] with clockInit := true, startTime := 42 } : TraceState).stream.openPath = none ∧
    ((execOps [Op.start "u" true, Op.instantGlobal "e" 1, Op.fin] { initState [9] with clockInit := true, startTime := 42 }).getD (initState [])).clockInit = true ∧
    ((execOps [Op.start "u" true, Op.instantGlobal "e" 1, Op.fin] { initState [9] with clockInit := true, startTime := 42 }).getD (initState [])).startTime = 42 ∧
    (traceStart "u" true { { initState [] with clockInit := false } with clock := 5 :: [] }).2.startTime = 5 ∧
    (traceStart "u" false (initState [])).2.clockInit = (initState []).clockInit := by
  refine ⟨rfl, rfl, rfl, ?_, ?_, ?_, ?_⟩
  · exact (c7_clock_origin_captured_once.1 [Op.start "u" true, Op.instantGlobal "e" 1, Op.fin]
      { initState [9] with clockInit := true, startTime := 42 }
      ((execOps [Op.start "u" true, Op.instantGlobal "e" 1, Op.fin]
        { initState [9] with clockInit := true, startTime := 42 }).getD (initState []))
      rfl (by rfl)).1
  · exact (c7_clock_origin_captured_once.1 [Op.start "u" true, Op.instantGlobal "e" 1, Op.fin]
      { initState [9] with clockInit := true, startTime := 42 }
      ((execOps [Op.start "u" true, Op.instantGlobal "e" 1, Op.fin]
        { initState [9] with clockInit := true, startTime := 42 }).getD (initState []))
      rfl (by rfl)).2
  · exact (c7_clock_origin_captured_once.2.1 "u" 5 [] { initState [] with clockInit := false } rfl rfl).1
  · exact (c7_clock_origin_captured_once.2.2 "u" (initState []) rfl).1

/-- Witness for C8 at a concrete active state. -/
theorem c8_witness :
    ({ initState [] with traceActive := true } : TraceState).traceActive = true ∧
    ((traceEventStartArgs "f" "c" ["a", "b"] ["1"] 1 { initState [] with traceActive := true }).dataVector =
      (capFlush { initState [] with traceActive := true }).dataVector ++
        [recOf (eventStartObj "f" "c" (toInt32 TID_VALUE)
          (tsRender ({ initState [] with traceActive := true } : TraceState).startTime
            (clockPeek { initState [] with traceActive := true })))] ∧
     (traceEventStartArgs "f" "c" ["a", "b"] ["1"] 1 { initState [] with traceActive := true }).errLog =
      ({ initState [] with traceActive := true } : TraceState).errLog ++ [mismatchStartMsg "f"]) :=
  ⟨rfl, c8_two_names_one_value_degrades _ "f" "c" "a" "b" "1" 1 rfl⟩

/-! Claim C3: machinery shared by the two runs. -/

theorem traceEnd_of_empty {st : TraceState} (h : st.dataVector = []) :
    traceEnd st = none := by
  have hl : st.dataVector.getLast? = none := by rw [h]; rfl
  simp only [traceEnd, hl]

theorem traceEnd_open {st : TraceState} {p c : String} {l : List String}
    {lastObj : String} (hs : st.stream = ⟨some p, false⟩)
    (hf : fsFind st.files p = some c) (hd : st.dataVector = l ++ [recOf lastObj]) :
    traceEnd st = some { st with dataVector := [], files := fsSet st.files p (c ++ strConcat (l ++ [lastObj]) ++ "\n]"), stream := ⟨none, false⟩, traceActive := false } := by
  have hlast : st.dataVector.getLast? = some (recOf lastObj) := by
    rw [hd]
    simp
  have hdl : st.dataVector.dropLast = l := by
    rw [hd]
    simp
  have hlen2 : ¬ (recOf lastObj).length < 2 := by
    rw [length_recOf]
    omega
  simp only [traceEnd, hlast]
  rw [if_neg hlen2]
  have hst1 : { st with dataVector := st.dataVector.dropLast ++ [strPopBack (strPopBack (recOf lastObj))] } = { st with dataVector := l ++ [lastObj] } := by
    rw [hdl, strPopBack_strPopBack_recOf]
  rw [hst1]
  have hs1 : ({ st with dataVector := l ++ [lastObj] } : TraceState).stream = ⟨some p, false⟩ := hs
  have hf1 : fsFind ({ st with dataVector := l ++ [lastObj] } : TraceState).files p = some c := hf
  rw [traceFlush_open hs1 hf1]
  dsimp only
  have hs2 : ({ st with dataVector := ([] : List String), files := fsSet st.files p (c ++ strConcat (l ++ [lastObj])) } : TraceState).stream = ⟨some p, false⟩ := hs
  rw [streamWrite_open hs2]
  dsimp only
  rw [fsWrite_of_fsFind (fsFind_fsSet _ _ _), fsSet_fsSet]
  rw [hs]

theorem execOps_cons {op : Op} {st st1 : TraceState} (ops : List Op)
    (h : traceOp op st = some st1) : execOps (op :: ops) st = execOps ops st1 := by
  rw [execOps, h]
  rfl

theorem execOpsNC_cons {op : Op} {st st1 : TraceState} (ops : List Op)
    (h : traceOpNC op st = some st1) : execOpsNC (op :: ops) st = execOpsNC ops st1 := by
  rw [execOpsNC, h]
  rfl

theorem execOpsNC_append (a b : List Op) (st : TraceState) :
    execOpsNC (a ++ b) st = (execOpsNC a st).bind (execOpsNC b) := by
  induction a generalizing st with
  | nil => rfl
  | cons op ops ih =>
    cases htop : traceOpNC op st <;> simp [execOpsNC, htop, ih]

theorem execOps_replicate_instant (nm : String) (tid : Nat) : ∀ (j : Nat) (st : TraceState),
    st.traceActive = true → st.clock = [] → st.dataVector.length + j ≤ st.cap →
    execOps (List.replicate j (Op.instantGlobal nm tid)) st =
      some { st with dataVector := st.dataVector ++ List.replicate j (recOf (instantObj nm (toInt32 tid) (tsRender st.startTime 0))) } := by
  intro j
  induction j with
  | zero =>
    intro st h1 h2 h3
    simp only [List.replicate_zero, List.append_nil]
    show some st = _
    cases st
    rfl
  | succ n ih =>
    intro st h1 h2 h3
    rw [List.replicate_succ]
    have hstep : traceOp (Op.instantGlobal nm tid) st = some { st with dataVector := st.dataVector ++ [recOf (instantObj nm (toInt32 tid) (tsRender st.startTime 0))] } := by
      show some (traceInstantGlobal nm tid st) = _
      unfold traceInstantGlobal
      rw [if_neg (by simp [h1])]
      rw [capFlush_of_ne (by omega)]
      cases st
      simp_all [pushRec, clockTick, clockPeek]
    rw [execOps_cons _ hstep]
    rw [ih _ (by simp [h1]) (by simp [h2]) (by simp; omega)]
    have : (st.dataVector ++ [recOf (instantObj nm (toInt32 tid) (tsRender st.startTime 0))]) ++ List.replicate n (recOf (instantObj nm (toInt32 tid) (tsRender st.startTime 0))) = st.dataVector ++ List.replicate (n + 1) (recOf (instantObj nm (toInt32 tid) (tsRender st.startTime 0))) := by
      rw [List.append_assoc, List.replicate_succ]
      rfl
    rw [this]

theorem execOpsNC_replicate_instant (nm : String) (tid : Nat) : ∀ (j : Nat) (st : TraceState),
    st.traceActive = true → st.clock = [] →
    execOpsNC (List.replicate j (Op.instantGlobal nm tid)) st =
      some { st with dataVector := st.dataVector ++ List.replicate j (recOf (instantObj nm (toInt32 tid) (tsRender st.startTime 0))) } := by
  intro j
  induction j with
  | zero =>
    intro st h1 h2
    simp only [List.replicate_zero, List.append_nil]
    show some st = _
    cases st
    rfl
  | succ n ih =>
    intro st h1 h2
    rw [List.replicate_succ]
    have hstep : traceOpNC (Op.instantGlobal nm tid) st = some { st with dataVector := st.dataVector ++ [recOf (instantObj nm (toInt32 tid) (tsRender st.startTime 0))] } := by
      show some (traceInstantGlobalNC nm tid st) = _
      unfold traceInstantGlobalNC
      rw [if_neg (by simp [h1])]
      cases st
      simp_all [pushRec, clockTick, clockPeek]
    rw [execOpsNC_cons _ hstep]
    rw [ih _ (by simp [h1]) (by simp [h2])]
    have : (st.dataVector ++ [recOf (instantObj nm (toInt32 tid) (tsRender st.startTime 0))]) ++ List.replicate n (recOf (instantObj nm (toInt32 tid) (tsRender st.startTime 0))) = st.dataVector ++ List.replicate (n + 1) (recOf (instantObj nm (toInt32 tid) (tsRender st.startTime 0))) := by
      rw [List.append_assoc, List.replicate_succ]
      rfl
    rw [this]

theorem traceEventStartArgsNC_mismatch {t : TraceState} (name cat : String)
    {ks vs : List String} (tid : Nat) (hact : t.traceActive = true)
    (hlen : ks.length ≠ vs.length) :
    traceEventStartArgsNC name cat ks vs tid t =
      pushRec (clockTick { t with errLog := t.errLog ++ [mismatchStartMsg name] })
        (recOf (eventStartObj name cat (toInt32 TID_VALUE)
          (tsRender t.startTime (clockPeek t)))) := by
  unfold traceEventStartArgsNC
  rw [if_neg (by simp [hact]), if_neg hlen]
  unfold traceEventStartNC
  rw [if_neg (by simp [hact])]
  rfl

theorem traceEventEndArgsNC_mismatch {t : TraceState} {ks vs : List String}
    (tid : Nat) (hact : t.traceActive = true) (hlen : ks.length ≠ vs.length) :
    traceEventEndArgsNC ks vs tid t =
      pushRec (clockTick { t with errLog := t.errLog ++ [mismatchEndMsg] })
        (recOf (eventEndObj (toInt32 TID_VALUE)
          (tsRender t.startTime (clockPeek t)))) := by
  unfold traceEventEndArgsNC
  rw [if_neg (by simp [hact]), if_neg hlen]
  unfold traceEventEndNC
  rw [if_neg (by simp [hact])]
  rfl

theorem noCapInv_init (p : String) (clock : List Nat) :
    NoCapInv p (traceStart p true (initState clock)).2 (traceStart p true (initState clock)).2 := by
  rw [traceStart_init]
  refine ⟨rfl, rfl, rfl, rfl, rfl, rfl, rfl, rfl, rfl, by simp, [], "[\n", by simp, ?_, ?_⟩
  · show fsFind [(p, "[\n")] p = some "[\n"
    simp [fsFind]
  · show [(p, "[\n")] = fsSet [(p, "[\n")] p ("[\n" ++ strConcat [])
    simp [fsSet, strConcat]

theorem noCapInv_capFlush {p : String} {s t : TraceState} (h : NoCapInv p s t) :
    NoCapInv p (capFlush s) t := by
  obtain ⟨ha, hs, h3, h4, h5, h6, h7, h8, h9, hrec, fl, tc, hfl, htc, hsf⟩ := h
  unfold capFlush
  split
  · have hfS : fsFind s.files p = some (tc ++ strConcat fl) := by
      rw [hsf]
      exact fsFind_fsSet _ _ _
    rw [traceFlush_open hs hfS]
    refine ⟨ha, hs, h3, h4, h5, h6, h7, h8, h9, hrec, fl ++ s.dataVector, tc, ?_, htc, ?_⟩
    · rw [hfl, List.append_nil]
    · show fsSet s.files p ((tc ++ strConcat fl) ++ strConcat s.dataVector) = _
      rw [hsf, fsSet_fsSet, strConcat_append, String.append_assoc]
  · exact ⟨ha, hs, h3, h4, h5, h6, h7, h8, h9, hrec, fl, tc, hfl, htc, hsf⟩

theorem noCapInv_push {p : String} {s t : TraceState} (h : NoCapInv p s t)
    {r : String} (hro : ∃ o, r = recOf o) :
    NoCapInv p (pushRec (clockTick s) r) (pushRec (clockTick t) r) := by
  obtain ⟨ha, hs, h3, h4, h5, h6, h7, h8, h9, hrec, fl, tc, hfl, htc, hsf⟩ := h
  refine ⟨ha, hs, h3, h4, h5, h6, h7, ?_, h9, ?_, fl, tc, ?_, htc, hsf⟩
  · show t.clock.tail = s.clock.tail
    rw [h8]
  · intro x hx
    rcases List.mem_append.mp hx with h1 | h1
    · exact hrec x h1
    · rw [List.mem_singleton.mp h1]
      exact hro
  · show t.dataVector ++ [r] = fl ++ (s.dataVector ++ [r])
    rw [hfl, List.append_assoc]

theorem noCapInv_errLog {p : String} {s t : TraceState} (h : NoCapInv p s t)
    (m : String) :
    NoCapInv p { s with errLog := s.errLog ++ [m] } { t with errLog := t.errLog ++ [m] } := by
  obtain ⟨ha, hs, h3, h4, h5, h6, h7, h8, h9, hrec, fl, tc, hfl, htc, hsf⟩ := h
  refine ⟨ha, hs, h3, h4, h5, h6, h7, h8, ?_, hrec, fl, tc, hfl, htc, hsf⟩
  show t.errLog ++ [m] = s.errLog ++ [m]
  rw [h9]

theorem noCapInv_ts {p : String} {s t : TraceState} (h : NoCapInv p s t) :
    tsRender t.startTime (clockPeek t) =
      tsRender (capFlush s).startTime (clockPeek (capFlush s)) := by
  obtain ⟨ha, hs, h3, h4, h5, h6, h7, h8, h9, hrec, fl, tc, hfl, htc, hsf⟩ := h
  simp [clockPeek, h7, h8]

theorem noCapInv_emit {p : String} {s t : TraceState} (h : NoCapInv p s t)
    (F : Int → String) :
    NoCapInv p
      (pushRec (clockTick (capFlush s))
        (recOf (F (tsRender (capFlush s).startTime (clockPeek (capFlush s))))))
      (pushRec (clockTick t) (recOf (F (tsRender t.startTime (clockPeek t))))) := by
  rw [noCapInv_ts h]
  exact noCapInv_push (noCapInv_capFlush h) ⟨_, rfl⟩

theorem noCapInv_ts_plain {p : String} {s t : TraceState} (h : NoCapInv p s t) :
    tsRender t.startTime (clockPeek t) = tsRender s.startTime (clockPeek s) := by
  obtain ⟨ha, hs, h3, h4, h5, h6, h7, h8, h9, hrec, fl, tc, hfl, htc, hsf⟩ := h
  simp [clockPeek, h7, h8]

theorem noCapInv_step {p : String} {s t : TraceState} (op : Op)
    (hemit : isEmitOp op = true) (hpush : pushesOp op = true) (h : NoCapInv p s t) :
    ∃ s' t', traceOp op s = some s' ∧ traceOpNC op t = some t' ∧
      NoCapInv p s' t' ∧ s'.dataVector ≠ [] := by
  have ha : s.traceActive = true := h.1
  have hta : t.traceActive = true := by rw [h.2.2.1, ha]
  cases op with
  | start q ok => simp [isEmitOp] at hemit
  | flush => simp [isEmitOp] at hemit
  | fin => simp [isEmitOp] at hemit
  | eventStart n c tid =>
    refine ⟨_, _, rfl, rfl, ?_, ?_⟩
    · show NoCapInv p (traceEventStart n c tid s) (traceEventStartNC n c tid t)
      unfold traceEventStart traceEventStartNC
      rw [if_neg (by simp [ha]), if_neg (by simp [hta])]
      exact noCapInv_emit h (fun ts => eventStartObj n c (toInt32 tid) ts)
    · show (traceEventStart n c tid s).dataVector ≠ []
      unfold traceEventStart
      rw [if_neg (by simp [ha])]
      simp [pushRec]
  | eventEnd tid =>
    refine ⟨_, _, rfl, rfl, ?_, ?_⟩
    · show NoCapInv p (traceEventEnd tid s) (traceEventEndNC tid t)
      unfold traceEventEnd traceEventEndNC
      rw [if_neg (by simp [ha]), if_neg (by simp [hta])]
      exact noCapInv_emit h (fun ts => eventEndObj (toInt32 tid) ts)
    · show (traceEventEnd tid s).dataVector ≠ []
      unfold traceEventEnd
      rw [if_neg (by simp [ha])]
      simp [pushRec]
  | objectNew n ptr tid =>
    refine ⟨_, _, rfl, rfl, ?_, ?_⟩
    · show NoCapInv p (traceObjectNew n ptr tid s) (traceObjectNewNC n ptr tid t)
      unfold traceObjectNew traceObjectNewNC
      rw [if_neg (by simp [ha]), if_neg (by simp [hta])]
      exact noCapInv_emit h (fun ts => objectNewObj n ptr (toInt32 tid) ts)
    · show (traceObjectNew n ptr tid s).dataVector ≠ []
      unfold traceObjectNew
      rw [if_neg (by simp [ha])]
      simp [pushRec]
  | objectGone n ptr tid =>
    refine ⟨_, _, rfl, rfl, ?_, ?_⟩
    · show NoCapInv p (traceObjectGone n ptr tid s) (traceObjectGoneNC n ptr tid t)
      unfold traceObjectGone traceObjectGoneNC
      rw [if_neg (by simp [ha]), if_neg (by simp [hta])]
      exact noCapInv_emit h (fun ts => objectGoneObj n ptr (toInt32 tid) ts)
    · show (traceObjectGone n ptr tid s).dataVector ≠ []
      unfold traceObjectGone
      rw [if_neg (by simp [ha])]
      simp [pushRec]
  | instantGlobal n tid =>
    refine ⟨_, _, rfl, rfl, ?_, ?_⟩
    · show NoCapInv p (traceInstantGlobal n tid s) (traceInstantGlobalNC n tid t)
      unfold traceInstantGlobal traceInstantGlobalNC
      rw [if_neg (by simp [ha]), if_neg (by simp [hta])]
      exact noCapInv_emit h (fun ts => instantObj n (toInt32 tid) ts)
    · show (traceInstantGlobal n tid s).dataVector ≠ []
      unfold traceInstantGlobal
      rw [if_neg (by simp [ha])]
      simp [pushRec]
  | counter n ks vs tid =>
    have hlen : ks.length = vs.length := by simpa [pushesOp] using hpush
    refine ⟨_, _, rfl, rfl, ?_, ?_⟩
    · show NoCapInv p (traceCounter n ks vs tid s) (traceCounterNC n ks vs tid t)
      unfold traceCounter traceCounterNC
      rw [if_neg (show ¬ s.traceActive = false by simp [ha]), if_pos hlen,
        if_neg (show ¬ t.traceActive = false by simp [hta]), if_pos hlen]
      exact noCapInv_emit h (fun ts => counterObj n ks vs (toInt32 tid) ts)
    · show (traceCounter n ks vs tid s).dataVector ≠ []
      unfold traceCounter
      rw [if_neg (by simp [ha]), if_pos hlen]
      simp [pushRec]
  | eventStartArgs n c ks vs tid =>
    refine ⟨_, _, rfl, rfl, ?_, ?_⟩
    · show NoCapInv p (traceEventStartArgs n c ks vs tid s) (traceEventStartArgsNC n c ks vs tid t)
      by_cases hlen : ks.length = vs.length
      · unfold traceEventStartArgs traceEventStartArgsNC
        rw [if_neg (show ¬ s.traceActive = false by simp [ha]), if_pos hlen,
          if_neg (show ¬ t.traceActive = false by simp [hta]), if_pos hlen]
        exact noCapInv_emit h (fun ts => eventStartArgsObj n c ks vs (toInt32 tid) ts)
      · rw [traceEventStartArgs_mismatch n c tid ha hlen,
          traceEventStartArgsNC_mismatch n c tid hta hlen, noCapInv_ts_plain h]
        exact noCapInv_push (noCapInv_errLog (noCapInv_capFlush h) (mismatchStartMsg n)) ⟨_, rfl⟩
    · show (traceEventStartArgs n c ks vs tid s).dataVector ≠ []
      by_cases hlen : ks.length = vs.length
      · unfold traceEventStartArgs
        rw [if_neg (by simp [ha]), if_pos hlen]
        simp [pushRec]
      · rw [traceEventStartArgs_mismatch n c tid ha hlen]
        simp [pushRec]
  | eventEndArgs ks vs tid =>
    refine ⟨_, _, rfl, rfl, ?_, ?_⟩
    · show NoCapInv p (traceEventEndArgs ks vs tid s) (traceEventEndArgsNC ks vs tid t)
      by_cases hlen : ks.length = vs.length
      · unfold traceEventEndArgs traceEventEndArgsNC
        rw [if_neg (show ¬ s.traceActive = false by simp [ha]), if_pos hlen,
          if_neg (show ¬ t.traceActive = false by simp [hta]), if_pos hlen]
        exact noCapInv_emit h (fun ts => eventEndArgsObj ks vs (toInt32 tid) ts)
      · rw [traceEventEndArgs_mismatch tid ha hlen,
          traceEventEndArgsNC_mismatch tid hta hlen, noCapInv_ts_plain h]
        exact noCapInv_push (noCapInv_errLog (noCapInv_capFlush h) mismatchEndMsg) ⟨_, rfl⟩
    · show (traceEventEndArgs ks vs tid s).dataVector ≠ []
      by_cases hlen : ks.length = vs.length
      · unfold traceEventEndArgs
        rw [if_neg (by simp [ha]), if_pos hlen]
        simp [pushRec]
      · rw [traceEventEndArgs_mismatch tid ha hlen]
        simp [pushRec]

theorem noCapInv_run {p : String} (es : List Op) : ∀ s t : TraceState,
    (∀ op ∈ es, isEmitOp op = true ∧ pushesOp op = true) → NoCapInv p s t →
    ∃ s' t', execOps es s = some s' ∧ execOpsNC es t = some t' ∧
      NoCapInv p s' t' ∧ (es = [] → s' = s) ∧ (es ≠ [] → s'.dataVector ≠ []) := by
  induction es with
  | nil =>
    intro s t _ h
    exact ⟨s, t, rfl, rfl, h, fun _ => rfl, fun hc => absurd rfl hc⟩
  | cons op rest ih =>
    intro s t hops h
    obtain ⟨s1, t1, e1, e1', inv1, hne1⟩ :=
      noCapInv_step op (hops op (by simp)).1 (hops op (by simp)).2 h
    obtain ⟨s', t', e2, e2', inv', hnil, hne⟩ :=
      ih s1 t1 (fun x hx => hops x (by simp [hx])) inv1
    refine ⟨s', t', ?_, ?_, inv', fun hc => absurd hc (by simp), fun _ => ?_⟩
    · rw [execOps_cons rest e1, e2]
    · rw [execOpsNC_cons rest e1', e2']
    · rcases List.eq_nil_or_concat rest with hr | ⟨l, a, hr⟩
      · rw [hnil hr]
        exact hne1
      · exact hne (by rw [hr]; simp)

theorem noCapInv_end {p : String} {s t : TraceState} (h : NoCapInv p s t)
    (hne : s.dataVector ≠ []) : ∃ u, traceEnd s = some u ∧ traceEnd t = some u := by
  obtain ⟨ha, hs, h3, h4, h5, h6, h7, h8, h9, hrec, fl, tc, hfl, htc, hsf⟩ := h
  obtain ⟨l, rS, hdS⟩ : ∃ l rS, s.dataVector = l ++ [rS] := by
    rcases List.eq_nil_or_concat s.dataVector with h1 | ⟨l, a, h1⟩
    · exact absurd h1 hne
    · exact ⟨l, a, by simpa using h1⟩
  obtain ⟨oS, rfl⟩ : ∃ o, rS = recOf o := by
    apply hrec
    rw [hfl, hdS]
    simp
  have hfS : fsFind s.files p = some (tc ++ strConcat fl) := by
    rw [hsf]
    exact fsFind_fsSet _ _ _
  have hts : t.stream = ⟨some p, false⟩ := by rw [h4, hs]
  have hdT : t.dataVector = (fl ++ l) ++ [recOf oS] := by
    rw [hfl, hdS, List.append_assoc]
  refine ⟨_, traceEnd_open hs hfS hdS, ?_⟩
  rw [traceEnd_open hts htc hdT]
  congr 1
  rw [h5, h6, h7, h8, h9, hsf, fsSet_fsSet]
  have hX : tc ++ strConcat ((fl ++ l) ++ [oS]) = tc ++ strConcat fl ++ strConcat (l ++ [oS]) := by
    rw [List.append_assoc, strConcat_append, String.append_assoc]
  rw [hX]

/-- C3, amended: for every k ≥ 1, emitting `MAX_BUFFERED + k` record-producing
events during one session (any emit operations except a counter whose key and
value lists differ in length — that one appends nothing, see the
counterexample) produces exactly the same final state, and in particular the
same output file with the same logical event sequence in the same order, as
emitting the same events with no capacity limit: the capacity-triggered
implicit flush is invisible in the output. -/
theorem c3_capacity_flush_invisible (es : List Op) (p : String)
    (clock : List Nat) (k : Nat)
    (hops : ∀ op ∈ es, isEmitOp op = true ∧ pushesOp op = true)
    (hlen : es.length = TRACE_MAX + k) (hk : 1 ≤ k) :
    ∃ stf, execOps (Op.start p true :: es ++ [Op.fin]) (initState clock) = some stf ∧
      execOpsNC (Op.start p true :: es ++ [Op.fin]) (initState clock) = some stf := by
  have hne : es ≠ [] := by
    intro hc
    rw [hc] at hlen
    simp [TRACE_MAX] at hlen
    omega
  obtain ⟨s', t', e1, e2, inv, _, hnonempty⟩ :=
    noCapInv_run es _ _ hops (noCapInv_init p clock)
  obtain ⟨u, eu1, eu2⟩ := noCapInv_end inv (hnonempty hne)
  refine ⟨u, ?_, ?_⟩
  · rw [List.cons_append]
    rw [execOps_cons (es ++ [Op.fin])
      (show traceOp (Op.start p true) (initState clock) =
        some (traceStart p true (initState clock)).2 from rfl)]
    rw [execOps_append, e1]
    show execOps [Op.fin] s' = some u
    rw [execOps_cons []
      (show traceOp Op.fin s' = some u from eu1)]
    rfl
  · rw [List.cons_append]
    rw [execOpsNC_cons (es ++ [Op.fin])
      (show traceOpNC (Op.start p true) (initState clock) =
        some (traceStart p true (initState clock)).2 from rfl)]
    rw [execOpsNC_append, e2]
    show execOpsNC [Op.fin] t' = some u
    rw [execOpsNC_cons []
      (show traceOpNC Op.fin t' = some u from eu2)]
    rfl

/-- C3, counterexample to the claim as stated: with `TRACE_MAX` instant
events followed by one counter event with mismatched argument lists
(`MAX_BUFFERED + 1` events in total), the capacity-triggered flush empties
the buffer just before the counter is dropped, so the capped run reaches
`trace_end` with an empty buffer — undefined behaviour, no output — while
the run with no capacity limit completes normally: the implicit flush is
visible. -/
theorem c3_counterexample :
    execOps (Op.start "t" true :: (List.replicate TRACE_MAX (Op.instantGlobal "e" 1) ++ [Op.counter "c" ["a"] [] 1]) ++ [Op.fin]) (initState []) = none ∧
    execOpsNC (Op.start "t" true :: (List.replicate TRACE_MAX (Op.instantGlobal "e" 1) ++ [Op.counter "c" ["a"] [] 1]) ++ [Op.fin]) (initState []) ≠ none := by
  have hlist : (List.replicate TRACE_MAX (Op.instantGlobal "e" 1) ++ [Op.counter "c" ["a"] [] 1]) ++ [Op.fin] = List.replicate TRACE_MAX (Op.instantGlobal "e" 1) ++ [Op.counter "c" ["a"] [] 1, Op.fin] := by
    simp
  constructor
  · obtain ⟨st1, e1, h1a, h1b, h1c, h1d, h1e⟩ : ∃ st1,
        traceOp (Op.start "t" true) (initState []) = some st1 ∧
        st1.traceActive = true ∧ st1.clock = [] ∧ st1.dataVector = [] ∧
        st1.cap = TRACE_MAX ∧ st1.stream = (⟨some "t", false⟩ : OStream) := by
      refine ⟨_, rfl, ?_, ?_, ?_, ?_, ?_⟩ <;> rw [traceStart_init] <;> rfl
    rw [List.cons_append, execOps_cons _ e1, hlist, execOps_append]
    obtain ⟨st2, e2, h2a, h2len, h2cap⟩ : ∃ st2,
        execOps (List.replicate TRACE_MAX (Op.instantGlobal "e" 1)) st1 = some st2 ∧
        st2.traceActive = true ∧ st2.dataVector.length = TRACE_MAX ∧
        st2.cap = TRACE_MAX := by
      refine ⟨_, execOps_replicate_instant "e" 1 TRACE_MAX st1 h1a h1b
        (by rw [h1c, h1d]; simp), ?_, ?_, ?_⟩
      · exact h1a
      · show (st1.dataVector ++ List.replicate TRACE_MAX _).length = TRACE_MAX
        rw [h1c]
        simp
      · exact h1d
    rw [e2]
    show execOps [Op.counter "c" ["a"] [] 1, Op.fin] st2 = none
    obtain ⟨st3, e3, h3⟩ : ∃ st3,
        traceOp (Op.counter "c" ["a"] [] 1) st2 = some st3 ∧ st3.dataVector = [] := by
      refine ⟨_, rfl, ?_⟩
      show (traceCounter "c" ["a"] [] 1 st2).dataVector = []
      rw [traceCounter_mismatch "c" 1 h2a (by simp)]
      show (capFlush st2).dataVector = []
      unfold capFlush
      rw [if_pos (by rw [h2len, h2cap])]
      exact traceFlush_dataVector _
    rw [execOps_cons _ e3]
    show execOps [Op.fin] st3 = none
    rw [execOps, show traceOp Op.fin st3 = none from traceEnd_of_empty h3]
    rfl
  · obtain ⟨st1, e1, h1a, h1b, h1c, h1d, h1e, h1f⟩ : ∃ st1,
        traceOpNC (Op.start "t" true) (initState []) = some st1 ∧
        st1.traceActive = true ∧ st1.clock = [] ∧ st1.dataVector = [] ∧
        st1.cap = TRACE_MAX ∧ st1.stream = (⟨some "t", false⟩ : OStream) ∧
        st1.files = [("t", "[\n")] := by
      refine ⟨_, rfl, ?_, ?_, ?_, ?_, ?_, ?_⟩ <;> rw [traceStart_init] <;> rfl
    rw [List.cons_append, execOpsNC_cons _ e1, hlist, execOpsNC_append]
    obtain ⟨st2, e2, h2a, h2dv, h2e, h2f⟩ : ∃ st2,
        execOpsNC (List.replicate TRACE_MAX (Op.instantGlobal "e" 1)) st1 = some st2 ∧
        st2.traceActive = true ∧
        st2.dataVector = List.replicate TRACE_MAX (recOf (instantObj "e" (toInt32 1) (tsRender st1.startTime 0))) ∧
        st2.stream = (⟨some "t", false⟩ : OStream) ∧ st2.files = [("t", "[\n")] := by
      refine ⟨_, execOpsNC_replicate_instant "e" 1 TRACE_MAX st1 h1a h1b, ?_, ?_, ?_, ?_⟩
      · exact h1a
      · show st1.dataVector ++ _ = _
        rw [h1c]
        rfl
      · exact h1e
      · exact h1f
    rw [e2]
    show execOpsNC [Op.counter "c" ["a"] [] 1, Op.fin] st2 ≠ none
    have ecnc : traceCounterNC "c" ["a"] [] 1 st2 = { st2 with errLog := st2.errLog ++ [mismatchCounterMsg "c"] } := by
      unfold traceCounterNC
      rw [if_neg (by simp [h2a]), if_neg (by simp)]
    rw [execOpsNC_cons [Op.fin] (show traceOpNC (Op.counter "c" ["a"] [] 1) st2 = some { st2 with errLog := st2.errLog ++ [mismatchCounterMsg "c"] } from by rw [show traceOpNC (Op.counter "c" ["a"] [] 1) st2 = some (traceCounterNC "c" ["a"] [] 1 st2) from rfl, ecnc])]
    have hd3 : ({ st2 with errLog := st2.errLog ++ [mismatchCounterMsg "c"] } : TraceState).dataVector = List.replicate 9999 (recOf (instantObj "e" (toInt32 1) (tsRender st1.startTime 0))) ++ [recOf (instantObj "e" (toInt32 1) (tsRender st1.startTime 0))] := by
      show st2.dataVector = _
      rw [h2dv, show TRACE_MAX = 9999 + 1 from rfl, List.replicate_succ']
    have hs3 : ({ st2 with errLog := st2.errLog ++ [mismatchCounterMsg "c"] } : TraceState).stream = (⟨some "t", false⟩ : OStream) := h2e
    have hf3 : fsFind ({ st2 with errLog := st2.errLog ++ [mismatchCounterMsg "c"] } : TraceState).files "t" = some "[\n" := by
      show fsFind st2.files "t" = _
      rw [h2f]
      simp [fsFind]
    rw [execOpsNC_cons [] (show traceOpNC Op.fin _ = some _ from traceEnd_open hs3 hf3 hd3)]
    exact Option.some_ne_none _

/-- Witness for the amended C3: `MAX_BUFFERED + 1` instant events. -/
theorem c3_witness :
    (∀ op ∈ List.replicate (TRACE_MAX + 1) (Op.instantGlobal "e" 1),
      isEmitOp op = true ∧ pushesOp op = true) ∧
    (List.replicate (TRACE_MAX + 1) (Op.instantGlobal "e" 1)).length = TRACE_MAX + 1 ∧
    ∃ stf, execOps (Op.start "t" true :: List.replicate (TRACE_MAX + 1) (Op.instantGlobal "e" 1) ++ [Op.fin]) (initState []) = some stf ∧
      execOpsNC (Op.start "t" true :: List.replicate (TRACE_MAX + 1) (Op.instantGlobal "e" 1) ++ [Op.fin]) (initState []) = some stf := by
  have hops : ∀ op ∈ List.replicate (TRACE_MAX + 1) (Op.instantGlobal "e" 1),
      isEmitOp op = true ∧ pushesOp op = true := by
    intro op hop
    rw [List.eq_of_mem_replicate hop]
    exact ⟨rfl, rfl⟩
  exact ⟨hops, by simp,
    c3_capacity_flush_invisible _ "t" [] 1 hops (by simp) (by simp)⟩

end Tracelib
